import Mathlib

/-!
Shallow embedding of the provider package: the access-group condition
transcoder (`BuildAccessGroupCondition`, `TransformAccessGroupForSchema`),
the WAF rules data-source read loop (`dataSourceCloudflareWAFRulesRead`),
the access-group read error handling (`resourceCloudflareAccessGroupRead`)
and `appendConditionalAccessGroupFields`.

Go's `interface{}` values are modelled by `GoValue`; Go maps are
association lists in iteration order; a failed type assertion (an
unrecovered panic in Go) is modelled by `none` in the `Option` monad.
-/

/-- A dynamically typed Go value (`interface{}`) as it occurs in the
flattened Terraform schema representation and in JSON-decoded API
responses: strings, booleans, `[]interface{}` and `map[string]interface{}`. -/
inductive GoValue where
  | str (s : String)
  | bool (b : Bool)
  | list (l : List GoValue)
  | map (kvs : List (String × GoValue))

/-- Go type assertion `v.(string)`; `none` models the panic. -/
def asString : GoValue → Option String
  | .str s => some s
  | _ => none

/-- Go type assertion `v.([]interface{})`; `none` models the panic. -/
def asList : GoValue → Option (List GoValue)
  | .list l => some l
  | _ => none

/-- Go type assertion `v.(map[string]interface{})`; `none` models the panic. -/
def asMap : GoValue → Option (List (String × GoValue))
  | .map kvs => some kvs
  | _ => none

/-- Lookup of a key in a Go map; a missing key yields `none`, modelling the
`nil` value whose subsequent type assertion panics. -/
def lookupGo (kvs : List (String × GoValue)) (key : String) : Option GoValue :=
  (kvs.find? (fun p => p.1 == key)).map (·.2)

/-- A Go `for` loop over a list whose body may panic: map in the `Option`
monad, aborting at the first failure. -/
def optionMapM (g : α → Option β) : List α → Option (List β)
  | [] => some []
  | a :: t => do
    let b ← g a
    let bs ← optionMapM g t
    pure (b :: bs)

/-- Concatenation of the per-element groups appended by nested Go loops. -/
def flattenLists : List (List α) → List α
  | [] => []
  | l :: ls => l ++ flattenLists ls

/-- A `[]interface{}` holding strings. -/
def strList (l : List String) : GoValue := .list (l.map .str)

/-- One variant record of the API's polymorphic condition list: one
constructor per `cloudflare.AccessGroup*` struct appended by
`BuildAccessGroupCondition`; the string arguments are the struct fields
in source order.  A GitHub variant with `team = ""` models the struct
whose `team,omitempty` field is unset. -/
inductive Variant where
  | everyone
  | anyValidServiceToken
  | certificate
  | commonName (name : String)
  | authMethod (method : String)
  | gsuite (email idpID : String)
  | github (name team idpID : String)
  | azure (id idpID : String)
  | okta (name idpID : String)
  | saml (attrName attrValue idpID : String)
  | externalEvaluation (evaluateURL keysURL : String)
  | email (e : String)
  | emailDomain (d : String)
  | ip (addr : String)
  | serviceToken (id : String)
  | group (id : String)
  | geo (countryCode : String)
  | loginMethod (id : String)
  | devicePosture (id : String)
deriving DecidableEq

/-- Body of the generic `switch accessGroupType` in
`BuildAccessGroupCondition` for a single element of the value list; the
switch has no `default` case, so an unmatched kind appends nothing (and
performs no assertion on the element). -/
def buildGenericValue (accessGroupType : String) (value : GoValue) : Option (List Variant) :=
  if accessGroupType = "email" then (asString value).map fun s => [Variant.email s]
  else if accessGroupType = "email_domain" then (asString value).map fun s => [Variant.emailDomain s]
  else if accessGroupType = "ip" then (asString value).map fun s => [Variant.ip s]
  else if accessGroupType = "service_token" then (asString value).map fun s => [Variant.serviceToken s]
  else if accessGroupType = "group" then (asString value).map fun s => [Variant.group s]
  else if accessGroupType = "geo" then (asString value).map fun s => [Variant.geo s]
  else if accessGroupType = "login_method" then (asString value).map fun s => [Variant.loginMethod s]
  else if accessGroupType = "device_posture" then (asString value).map fun s => [Variant.devicePosture s]
  else some []

/-- One branch of the `if`/`else if` chain of `BuildAccessGroupCondition`
for a single `accessGroupType` key and its value. -/
def buildKind (accessGroupType : String) (values : GoValue) : Option (List Variant) :=
  if accessGroupType = "everyone" then
    some (match values with | .bool true => [Variant.everyone] | _ => [])
  else if accessGroupType = "any_valid_service_token" then
    some (match values with | .bool true => [Variant.anyValidServiceToken] | _ => [])
  else if accessGroupType = "certificate" then
    some (match values with | .bool true => [Variant.certificate] | _ => [])
  else if accessGroupType = "common_name" then
    match values with
    | .str s => if s = "" then some [] else some [Variant.commonName s]
    | _ => none
  else if accessGroupType = "auth_method" then
    match values with
    | .str s => if s = "" then some [] else some [Variant.authMethod s]
    | _ => none
  else if accessGroupType = "gsuite" then do
    let cfgs ← asList values
    let parts ← optionMapM (fun c => do
      let gsuiteCfg ← asMap c
      let emailsVal ← lookupGo gsuiteCfg "email"
      let emailList ← asList emailsVal
      optionMapM (fun ev => do
        let e ← asString ev
        let idpID ← lookupGo gsuiteCfg "identity_provider_id" >>= asString
        pure (Variant.gsuite e idpID)) emailList) cfgs
    pure (flattenLists parts)
  else if accessGroupType = "github" then do
    let cfgs ← asList values
    let parts ← optionMapM (fun c => do
      let githubCfg ← asMap c
      let teams ← lookupGo githubCfg "teams" >>= asList
      if teams.length > 0 then
        optionMapM (fun tv => do
          let n ← lookupGo githubCfg "name" >>= asString
          let t ← asString tv
          let idpID ← lookupGo githubCfg "identity_provider_id" >>= asString
          pure (Variant.github n t idpID)) teams
      else do
        let n ← lookupGo githubCfg "name" >>= asString
        let idpID ← lookupGo githubCfg "identity_provider_id" >>= asString
        pure [Variant.github n "" idpID]) cfgs
    pure (flattenLists parts)
  else if accessGroupType = "azure" then do
    let cfgs ← asList values
    let parts ← optionMapM (fun c => do
      let azureCfg ← asMap c
      let idsVal ← lookupGo azureCfg "id"
      let idList ← asList idsVal
      optionMapM (fun iv => do
        let i ← asString iv
        let idpID ← lookupGo azureCfg "identity_provider_id" >>= asString
        pure (Variant.azure i idpID)) idList) cfgs
    pure (flattenLists parts)
  else if accessGroupType = "okta" then do
    let cfgs ← asList values
    let parts ← optionMapM (fun c => do
      let oktaCfg ← asMap c
      let namesVal ← lookupGo oktaCfg "name"
      let nameList ← asList namesVal
      optionMapM (fun nv => do
        let n ← asString nv
        let idpID ← lookupGo oktaCfg "identity_provider_id" >>= asString
        pure (Variant.okta n idpID)) nameList) cfgs
    pure (flattenLists parts)
  else if accessGroupType = "saml" then do
    let cfgs ← asList values
    optionMapM (fun c => do
      let samlCfg ← asMap c
      let an ← lookupGo samlCfg "attribute_name" >>= asString
      let av ← lookupGo samlCfg "attribute_value" >>= asString
      let idpID ← lookupGo samlCfg "identity_provider_id" >>= asString
      pure (Variant.saml an av idpID)) cfgs
  else if accessGroupType = "external_evaluation" then do
    let cfgs ← asList values
    optionMapM (fun c => do
      let eeCfg ← asMap c
      let eu ← lookupGo eeCfg "evaluate_url" >>= asString
      let ku ← lookupGo eeCfg "keys_url" >>= asString
      pure (Variant.externalEvaluation eu ku)) cfgs
  else do
    let vs ← asList values
    let parts ← optionMapM (buildGenericValue accessGroupType) vs
    pure (flattenLists parts)

/-- The `for accessGroupType, values := range options` loop of
`BuildAccessGroupCondition`, appending each kind's variants to the
growing `group` slice. -/
def buildFold : List Variant → List (String × GoValue) → Option (List Variant)
  | grp, [] => some grp
  | grp, (k, v) :: rest => do
    let vs ← buildKind k v
    buildFold (grp ++ vs) rest

/-- `BuildAccessGroupCondition`: iterates the provided map of values and
generates the variant structs; `none` models an unrecovered
type-assertion panic. -/
def BuildAccessGroupCondition (options : List (String × GoValue)) : Option (List Variant) :=
  buildFold [] options

/-- A value inside a nested identity-provider block emitted by
`TransformAccessGroupForSchema` (a string or a `[]string`). -/
inductive BlockVal where
  | bStr (s : String)
  | bStrs (l : List String)
deriving DecidableEq

/-- A value of one entry of the flattened schema representation emitted by
`TransformAccessGroupForSchema`: `true`, a string, a `[]string`, or a
one-element `[]interface{}` holding a configuration map. -/
inductive SchemaVal where
  | vBool (b : Bool)
  | vStr (s : String)
  | vStrs (l : List String)
  | vBlock (kvs : List (String × BlockVal))
deriving DecidableEq

/-- The local variables of `TransformAccessGroupForSchema`, in source
order: the `data` result under construction and the per-kind
accumulators. -/
structure TransformState where
  data : List (String × SchemaVal)
  emails : List String
  emailDomains : List String
  ips : List String
  serviceTokens : List String
  groups : List String
  commonName : String
  authMethod : String
  geos : List String
  loginMethod : List String
  oktaID : String
  oktaGroups : List String
  gsuiteID : String
  gsuiteEmails : List String
  githubName : String
  githubTeams : List String
  githubID : String
  azureID : String
  azureIDs : List String
  samlAttrName : String
  samlAttrValue : String
  externalEvaluationURL : String
  externalEvaluationKeysURL : String
  devicePostureRuleIDs : List String
deriving DecidableEq

/-- The initial values of the local variables of
`TransformAccessGroupForSchema`. -/
def initState : TransformState :=
  { data := [], emails := [], emailDomains := [], ips := [], serviceTokens := []
    groups := [], commonName := "", authMethod := "", geos := [], loginMethod := []
    oktaID := "", oktaGroups := [], gsuiteID := "", gsuiteEmails := []
    githubName := "", githubTeams := [], githubID := "", azureID := "", azureIDs := []
    samlAttrName := "", samlAttrValue := "", externalEvaluationURL := ""
    externalEvaluationKeysURL := "", devicePostureRuleIDs := [] }

/-- `for _, x := range groupValue.(map[string]interface{})` collecting
`x.(string)` for every value of the inner map. -/
def innerStrings (groupValue : GoValue) : Option (List String) :=
  match groupValue with
  | .map kvs => optionMapM (fun p => asString p.2) kvs
  | _ => none

/-- One `case` of the `switch groupKey` in the scan loop of
`TransformAccessGroupForSchema`, updating the accumulators (the `default`
case only logs and changes nothing). -/
def processKey (st : TransformState) (groupKey : String) (groupValue : GoValue) :
    Option TransformState :=
  if groupKey = "everyone" ∨ groupKey = "any_valid_service_token" ∨ groupKey = "certificate" then
    some { st with data := st.data ++ [(groupKey, SchemaVal.vBool true)] }
  else if groupKey = "email" then
    (innerStrings groupValue).map fun l => { st with emails := st.emails ++ l }
  else if groupKey = "email_domain" then
    (innerStrings groupValue).map fun l => { st with emailDomains := st.emailDomains ++ l }
  else if groupKey = "ip" then
    (innerStrings groupValue).map fun l => { st with ips := st.ips ++ l }
  else if groupKey = "service_token" then
    (innerStrings groupValue).map fun l => { st with serviceTokens := st.serviceTokens ++ l }
  else if groupKey = "common_name" then
    (innerStrings groupValue).map fun l =>
      { st with commonName := l.foldl (fun _ x => x) st.commonName }
  else if groupKey = "auth_method" then
    (innerStrings groupValue).map fun l =>
      { st with authMethod := l.foldl (fun _ x => x) st.authMethod }
  else if groupKey = "geo" then
    (innerStrings groupValue).map fun l => { st with geos := st.geos ++ l }
  else if groupKey = "login_method" then
    (innerStrings groupValue).map fun l => { st with loginMethod := st.loginMethod ++ l }
  else if groupKey = "okta" then do
    let oktaCfg ← asMap groupValue
    let idpID ← lookupGo oktaCfg "identity_provider_id" >>= asString
    let n ← lookupGo oktaCfg "name" >>= asString
    some { st with oktaID := idpID, oktaGroups := st.oktaGroups ++ [n] }
  else if groupKey = "gsuite" then do
    let gsuiteCfg ← asMap groupValue
    let idpID ← lookupGo gsuiteCfg "identity_provider_id" >>= asString
    let e ← lookupGo gsuiteCfg "email" >>= asString
    some { st with gsuiteID := idpID, gsuiteEmails := st.gsuiteEmails ++ [e] }
  else if groupKey = "github-organization" then do
    let githubCfg ← asMap groupValue
    let idpID ← lookupGo githubCfg "identity_provider_id" >>= asString
    let n ← lookupGo githubCfg "name" >>= asString
    match lookupGo githubCfg "team" with
    | some tv => do
      let t ← asString tv
      some { st with githubID := idpID, githubName := n, githubTeams := st.githubTeams ++ [t] }
    | none => some { st with githubID := idpID, githubName := n }
  else if groupKey = "azureAD" then do
    let azureCfg ← asMap groupValue
    let idpID ← lookupGo azureCfg "identity_provider_id" >>= asString
    let i ← lookupGo azureCfg "id" >>= asString
    some { st with azureID := idpID, azureIDs := st.azureIDs ++ [i] }
  else if groupKey = "saml" then do
    let samlCfg ← asMap groupValue
    let an ← lookupGo samlCfg "attribute_name" >>= asString
    let av ← lookupGo samlCfg "attribute_value" >>= asString
    some { st with samlAttrName := an, samlAttrValue := av }
  else if groupKey = "external_evaluation" then do
    let eeCfg ← asMap groupValue
    let eu ← lookupGo eeCfg "evaluate_url" >>= asString
    let ku ← lookupGo eeCfg "keys_url" >>= asString
    some { st with externalEvaluationURL := eu, externalEvaluationKeysURL := ku }
  else if groupKey = "group" then
    (innerStrings groupValue).map fun l => { st with groups := st.groups ++ l }
  else if groupKey = "device_posture" then
    (innerStrings groupValue).map fun l =>
      { st with devicePostureRuleIDs := st.devicePostureRuleIDs ++ l }
  else
    some st

/-- `for groupKey, groupValue := range group.(map[string]interface{})`. -/
def processKeys : TransformState → List (String × GoValue) → Option TransformState
  | st, [] => some st
  | st, (k, v) :: rest => do
    let st' ← processKey st k v
    processKeys st' rest

/-- Processing of one element of the incoming `accessGroup` list. -/
def processVariant (st : TransformState) (g : GoValue) : Option TransformState := do
  let kvs ← asMap g
  processKeys st kvs

/-- The outer `for _, group := range accessGroup` scan loop. -/
def scanFrom : TransformState → List GoValue → Option TransformState
  | st, [] => some st
  | st, g :: rest => do
    let st' ← processVariant st g
    scanFrom st' rest

/-- One conditional `data = append(data, ...)` of the emit phase. -/
def emitIf (c : Bool) (e : String × SchemaVal) : List (String × SchemaVal) :=
  if c then [e] else []

/-- The emit phase of `TransformAccessGroupForSchema`: the sequence of
guarded appends after the scan loop, in source order. -/
def emitPhase (st : TransformState) : List (String × SchemaVal) :=
  emitIf (!st.emails.isEmpty) ("email", .vStrs st.emails) ++
  emitIf (!st.emailDomains.isEmpty) ("email_domain", .vStrs st.emailDomains) ++
  emitIf (!st.ips.isEmpty) ("ip", .vStrs st.ips) ++
  emitIf (!st.serviceTokens.isEmpty) ("service_token", .vStrs st.serviceTokens) ++
  emitIf (st.commonName != "") ("common_name", .vStr st.commonName) ++
  emitIf (st.authMethod != "") ("auth_method", .vStr st.authMethod) ++
  emitIf (!st.geos.isEmpty) ("geo", .vStrs st.geos) ++
  emitIf (!st.loginMethod.isEmpty) ("login_method", .vStrs st.loginMethod) ++
  emitIf (!st.oktaGroups.isEmpty && st.oktaID != "")
    ("okta", .vBlock [("identity_provider_id", .bStr st.oktaID), ("name", .bStrs st.oktaGroups)]) ++
  emitIf (!st.gsuiteEmails.isEmpty && st.gsuiteID != "")
    ("gsuite", .vBlock [("identity_provider_id", .bStr st.gsuiteID), ("email", .bStrs st.gsuiteEmails)]) ++
  emitIf (st.githubID != "" && st.githubName != "")
    ("github", .vBlock [("name", .bStr st.githubName), ("teams", .bStrs st.githubTeams),
      ("identity_provider_id", .bStr st.githubID)]) ++
  emitIf (!st.azureIDs.isEmpty && st.azureID != "")
    ("azure", .vBlock [("identity_provider_id", .bStr st.azureID), ("id", .bStrs st.azureIDs)]) ++
  emitIf (st.samlAttrName != "" && st.samlAttrValue != "")
    ("saml", .vBlock [("attribute_name", .bStr st.samlAttrName), ("attribute_value", .bStr st.samlAttrValue)]) ++
  emitIf (st.externalEvaluationURL != "" && st.externalEvaluationKeysURL != "")
    ("external_evaluation", .vBlock [("evaluate_url", .bStr st.externalEvaluationURL),
      ("keys_url", .bStr st.externalEvaluationKeysURL)]) ++
  emitIf (!st.groups.isEmpty) ("group", .vStrs st.groups) ++
  emitIf (!st.devicePostureRuleIDs.isEmpty) ("device_posture", .vStrs st.devicePostureRuleIDs)

/-- `TransformAccessGroupForSchema`: scans the incoming variant list into
the accumulators, then emits the flattened schema representation; `none`
models a type-assertion panic. -/
def TransformAccessGroupForSchema (accessGroup : List GoValue) :
    Option (List (String × SchemaVal)) := do
  let st ← scanFrom initState accessGroup
  pure (st.data ++ emitPhase st)

/-- The condition kinds whose schema entry is appended during the scan
loop itself (one entry per variant) rather than by the merging emit
phase. -/
def boolKinds : List String := ["everyone", "any_valid_service_token", "certificate"]

/-- The emit guard of `TransformAccessGroupForSchema` for a given key:
the condition under which the emit phase appends an entry with that key,
read off the final scan state. -/
def emitGuard (st : TransformState) (k : String) : Bool :=
  if k = "email" then !st.emails.isEmpty
  else if k = "email_domain" then !st.emailDomains.isEmpty
  else if k = "ip" then !st.ips.isEmpty
  else if k = "service_token" then !st.serviceTokens.isEmpty
  else if k = "common_name" then st.commonName != ""
  else if k = "auth_method" then st.authMethod != ""
  else if k = "geo" then !st.geos.isEmpty
  else if k = "login_method" then !st.loginMethod.isEmpty
  else if k = "okta" then !st.oktaGroups.isEmpty && st.oktaID != ""
  else if k = "gsuite" then !st.gsuiteEmails.isEmpty && st.gsuiteID != ""
  else if k = "github" then st.githubID != "" && st.githubName != ""
  else if k = "azure" then !st.azureIDs.isEmpty && st.azureID != ""
  else if k = "saml" then st.samlAttrName != "" && st.samlAttrValue != ""
  else if k = "external_evaluation" then
    st.externalEvaluationURL != "" && st.externalEvaluationKeysURL != ""
  else if k = "group" then !st.groups.isEmpty
  else if k = "device_posture" then !st.devicePostureRuleIDs.isEmpty
  else false

/-- The fixed source order in which the emit phase of
`TransformAccessGroupForSchema` appends its entries. -/
def emitKeyOrder : List String :=
  ["email", "email_domain", "ip", "service_token", "common_name", "auth_method",
   "geo", "login_method", "okta", "gsuite", "github", "azure", "saml",
   "external_evaluation", "group", "device_posture"]

/-- Modelled from the spec: the JSON shape in which the external
`cloudflare-go` SDK (not part of this repository) serialises each
condition variant and in which the API returns it to the read path.  The
inner field names are the JSON tags written out in
`BuildAccessGroupCondition`; the outer keys are the ones consumed by
`TransformAccessGroupForSchema`; the GitHub `team,omitempty` field is
omitted when empty. -/
def variantToApi : Variant → GoValue
  | .everyone => .map [("everyone", .map [])]
  | .anyValidServiceToken => .map [("any_valid_service_token", .map [])]
  | .certificate => .map [("certificate", .map [])]
  | .commonName n => .map [("common_name", .map [("common_name", .str n)])]
  | .authMethod m => .map [("auth_method", .map [("auth_method", .str m)])]
  | .gsuite e idpID =>
      .map [("gsuite", .map [("email", .str e), ("identity_provider_id", .str idpID)])]
  | .github n t idpID =>
      .map [("github-organization", .map
        (("name", GoValue.str n) ::
          ((if t = "" then [] else [("team", GoValue.str t)]) ++
            [("identity_provider_id", GoValue.str idpID)])))]
  | .azure i idpID =>
      .map [("azureAD", .map [("id", .str i), ("identity_provider_id", .str idpID)])]
  | .okta n idpID =>
      .map [("okta", .map [("name", .str n), ("identity_provider_id", .str idpID)])]
  | .saml an av idpID =>
      .map [("saml", .map [("attribute_name", .str an), ("attribute_value", .str av),
        ("identity_provider_id", .str idpID)])]
  | .externalEvaluation eu ku =>
      .map [("external_evaluation", .map [("evaluate_url", .str eu), ("keys_url", .str ku)])]
  | .email e => .map [("email", .map [("email", .str e)])]
  | .emailDomain d => .map [("email_domain", .map [("domain", .str d)])]
  | .ip a => .map [("ip", .map [("ip", .str a)])]
  | .serviceToken i => .map [("service_token", .map [("token_id", .str i)])]
  | .group i => .map [("group", .map [("id", .str i)])]
  | .geo c => .map [("geo", .map [("country_code", .str c)])]
  | .loginMethod i => .map [("login_method", .map [("id", .str i)])]
  | .devicePosture i => .map [("device_posture", .map [("integration_uid", .str i)])]

/-- Reading a nested block value back as the Go value the schema holds. -/
def blockValToGo : BlockVal → GoValue
  | .bStr s => .str s
  | .bStrs l => strList l

/-- Reading an emitted schema value back as the Go value the schema holds
(`[]string` and `[]interface{}` both flatten to `GoValue.list`). -/
def schemaValToGo : SchemaVal → GoValue
  | .vBool b => .bool b
  | .vStr s => .str s
  | .vStrs l => strList l
  | .vBlock kvs => .list [.map (kvs.map fun p => (p.1, blockValToGo p.2))]

/-- The emitted flattened representation, as the per-kind map the forward
direction consumes (each emitted entry is a one-key map). -/
def schemaToOptions (out : List (String × SchemaVal)) : List (String × GoValue) :=
  out.map fun p => (p.1, schemaValToGo p.2)

/-- The round trip of the spec's testable property: build the variant
list from a flattened map, serialise it through the API representation,
transform it back, and read the result as a flattened map. -/
def roundTrip (options : List (String × GoValue)) : Option (List (String × GoValue)) := do
  let vs ← BuildAccessGroupCondition options
  let out ← TransformAccessGroupForSchema (vs.map variantToApi)
  pure (schemaToOptions out)

/-- `cloudflare.WAFRule` restricted to the fields the data source reads. -/
structure WAFRule where
  id : String
  description : String
  priority : String
  mode : String
  groupId : String
  groupName : String
  allowedModes : List String
  defaultMode : String
deriving DecidableEq

/-- `searchFilterWAFRules`; the compiled description regex is modelled as
a match predicate on strings. -/
structure searchFilterWAFRules where
  Description : Option (String → Bool)
  Mode : String
  GroupID : String

/-- One element of the emitted `rules` list (the
`map[string]interface{}` appended per matching rule). -/
structure WAFRuleDetail where
  id : String
  description : String
  priority : String
  mode : String
  group_id : String
  group_name : String
  package_id : String
  allowed_modes : List String
  default_mode : String
deriving DecidableEq

/-- The detail map appended for a matching rule of a package. -/
def mkRuleDetail (pkgID : String) (r : WAFRule) : WAFRuleDetail :=
  { id := r.id, description := r.description, priority := r.priority, mode := r.mode
    group_id := r.groupId, group_name := r.groupName, package_id := pkgID
    allowed_modes := r.allowedModes, default_mode := r.defaultMode }

/-- The conjunction of the three filters of
`dataSourceCloudflareWAFRulesRead` (each `continue` skips a rule failing
its filter). -/
def ruleMatches (filter : searchFilterWAFRules) (rule : WAFRule) : Bool :=
  (filter.GroupID == "" || filter.GroupID == rule.groupId)
  && (match filter.Description with | none => true | some m => m rule.description)
  && (filter.Mode == "" || filter.Mode == rule.mode)

/-- The inner `for _, rule := range ruleList` loop of
`dataSourceCloudflareWAFRulesRead`, threading the `foundGroup` flag. -/
def wafRulesLoop (filter : searchFilterWAFRules) (pkgID : String) :
    List WAFRule → Bool → List WAFRuleDetail × List String × Bool
  | [], foundGroup => ([], [], foundGroup)
  | rule :: rest, foundGroup =>
    if filter.GroupID != "" && filter.GroupID != rule.groupId then
      wafRulesLoop filter pkgID rest foundGroup
    else
      let fg := if filter.GroupID != "" then true else foundGroup
      if (match filter.Description with
          | some m => !m rule.description
          | none => false) then
        wafRulesLoop filter pkgID rest fg
      else if filter.Mode != "" && filter.Mode != rule.mode then
        wafRulesLoop filter pkgID rest fg
      else
        let res := wafRulesLoop filter pkgID rest fg
        (mkRuleDetail pkgID rule :: res.1, rule.id :: res.2.1, res.2.2)

/-- The outer `for _, pkg := range pkgList` loop of
`dataSourceCloudflareWAFRulesRead`; `rulesOf` models
`client.ListWAFRules` (error-free).  Returns the emitted rule details,
the collected rule IDs, and the list of package IDs actually queried; a
package after one whose scan set `foundGroup` is never queried. -/
def wafRulesScan (filter : searchFilterWAFRules) (rulesOf : String → List WAFRule) :
    List String → List WAFRuleDetail × List String × List String
  | [] => ([], [], [])
  | pkgID :: rest =>
    let res := wafRulesLoop filter pkgID (rulesOf pkgID) false
    if res.2.2 then
      (res.1, res.2.1, [pkgID])
    else
      let r := wafRulesScan filter rulesOf rest
      (res.1 ++ r.1, res.2.1 ++ r.2.1, pkgID :: r.2.2)

/-- Substring search on character lists (`strings.Contains`). -/
def charsContain : List Char → List Char → Bool
  | [], n => n.isEmpty
  | c :: t, n => n.isPrefixOf (c :: t) || charsContain t n

/-- `strings.Contains(s, sub)`. -/
def strContainsSub (s sub : String) : Bool :=
  charsContain s.toList sub.toList

/-- The schema state of the access-group resource the read handler
touches: its ID, name, and the three condition attributes. -/
structure ResourceData where
  id : String
  name : String
  requireAttr : List (String × SchemaVal)
  excludeAttr : List (String × SchemaVal)
  includeAttr : List (String × SchemaVal)
deriving DecidableEq

/-- The `cloudflare.AccessGroup` returned by the API client, its
condition lists JSON-decoded. -/
structure AccessGroupApi where
  Name : String
  Include : List GoValue
  Exclude : List GoValue
  Require : List GoValue

/-- `resourceCloudflareAccessGroupRead` after the identifier has been
resolved: `apiResult` is the outcome of the `AccessGroup` /
`ZoneLevelAccessGroup` client call (the error carrying its message).
Returns the updated schema state and the diagnostic error, or `none` for
a panic while transforming the conditions. -/
def resourceCloudflareAccessGroupRead (d : ResourceData)
    (apiResult : Except String AccessGroupApi) : Option (ResourceData × Option String) :=
  match apiResult with
  | .error e =>
    if strContainsSub e "HTTP status 404" then
      some ({ d with id := "" }, none)
    else
      some (d, some ("error finding Access Group \"" ++ d.id ++ "\": " ++ e))
  | .ok accessGroup => do
    let req ← TransformAccessGroupForSchema accessGroup.Require
    let exc ← TransformAccessGroupForSchema accessGroup.Exclude
    let inc ← TransformAccessGroupForSchema accessGroup.Include
    let d' := { d with name := accessGroup.Name, requireAttr := req,
                       excludeAttr := exc, includeAttr := inc }
    some (d', none)

/-- The `cloudflare.AccessGroup` request struct built by the create and
update handlers. -/
structure AccessGroup where
  ID : String
  Name : String
  Include : List Variant
  Exclude : List Variant
  Require : List Variant
deriving DecidableEq

/-- One `for _, value := range ...` loop of
`appendConditionalAccessGroupFields`: each non-nil block's built
conditions are assigned to (not appended to) the field. -/
def condBlocksFold : List Variant → List (Option (List (String × GoValue))) → Option (List Variant)
  | cur, [] => some cur
  | cur, none :: rest => condBlocksFold cur rest
  | _, some m :: rest => do
    let built ← BuildAccessGroupCondition m
    condBlocksFold built rest

/-- `appendConditionalAccessGroupFields`: the schema's `exclude`,
`require` and `include` lists (each block a map or nil), processed in
source order. -/
def appendConditionalAccessGroupFields (group : AccessGroup)
    (excludeL requireL includeL : List (Option (List (String × GoValue)))) :
    Option AccessGroup := do
  let exc ← condBlocksFold group.Exclude excludeL
  let req ← condBlocksFold group.Require requireL
  let inc ← condBlocksFold group.Include includeL
  some { group with Exclude := exc, Require := req, Include := inc }

/-! Concrete inputs used by the witness theorems. -/

/-- A scan input holding a single email variant. -/
def witIn : List GoValue := [.map [("email", .map [("email", .str "a@x.com")])]]

/-- The scan state after `witIn`. -/
def witSt : TransformState := { initState with emails := ["a@x.com"] }

/-- The transform output for `witIn`. -/
def witOut : List (String × SchemaVal) := [("email", SchemaVal.vStrs ["a@x.com"])]

/-- A WAF filter selecting group `g1`. -/
def wafWitFilter : searchFilterWAFRules := { Description := none, Mode := "", GroupID := "g1" }

/-- A rule belonging to group `g1`. -/
def wafWitRule : WAFRule :=
  { id := "r1", description := "d", priority := "1", mode := "on", groupId := "g1"
    groupName := "grp", allowedModes := ["on", "off"], defaultMode := "on" }

/-- A package listing where only package `p1` contains `wafWitRule`. -/
def wafWitRulesOf : String → List WAFRule := fun pkgID =>
  if pkgID = "p1" then [wafWitRule] else []

/-- A resource state with a set ID. -/
def witResource : ResourceData :=
  { id := "gid", name := "", requireAttr := [], excludeAttr := [], includeAttr := [] }

/-- An empty access group request struct. -/
def witGroup : AccessGroup := { ID := "", Name := "", Include := [], Exclude := [], Require := [] }

/-- The group produced by `appendConditionalAccessGroupFields` from
`witGroup` with two exclude blocks. -/
def witGroupOut : AccessGroup :=
  { ID := "", Name := "", Include := [], Exclude := [Variant.email "b"], Require := [] }

/-- A flattened saml block carrying an identity provider ID. -/
def samlCexIn : List (String × GoValue) :=
  [("saml", GoValue.list [GoValue.map [("attribute_name", GoValue.str "a"),
    ("attribute_value", GoValue.str "v"), ("identity_provider_id", GoValue.str "i")]])]

/-- Two `everyone` variants in one incoming list. -/
def everyoneTwice : List GoValue :=
  [.map [("everyone", .map [])], .map [("everyone", .map [])]]

/-- An okta variant whose identity provider ID is the empty string. -/
def oktaEmptyIdIn : List GoValue :=
  [.map [("okta", .map [("identity_provider_id", .str ""), ("name", .str "grp")])]]

/-- An `everyone` variant followed by a `certificate` variant. -/
def evCertIn : List GoValue := [.map [("everyone", .map [])], .map [("certificate", .map [])]]

/-- The same two variants in the opposite order. -/
def certEvIn : List GoValue := [.map [("certificate", .map [])], .map [("everyone", .map [])]]

/-! ### General helper lemmas -/

theorem optionMapM_congr_map (g : α → Option β) (f : α → β) :
    ∀ l : List α, (∀ a ∈ l, g a = some (f a)) → optionMapM g l = some (l.map f) := by
  intro l
  induction l with
  | nil => intro _; rfl
  | cons a t ih =>
    intro h
    simp only [optionMapM, h a (List.mem_cons_self a t),
      ih (fun x hx => h x (List.mem_cons_of_mem a hx)), Option.bind_eq_bind, Option.some_bind,
      List.map_cons]
    rfl

theorem flattenLists_map_singleton (f : α → β) :
    ∀ l : List α, flattenLists (l.map fun a => [f a]) = l.map f := by
  intro l
  induction l with
  | nil => rfl
  | cons a t ih => simp [flattenLists, ih]

theorem BuildAccessGroupCondition_single (k : String) (v : GoValue) :
    BuildAccessGroupCondition [(k, v)] = buildKind k v := by
  unfold BuildAccessGroupCondition buildFold
  cases h : buildKind k v <;> simp [buildFold, h]

/-! ### C8 -/

/-- C8: `BuildAccessGroupCondition` performs no validation beyond type
assertions: a non-list value under the list-valued `email` kind, and a
non-string element inside the list, both end in an unrecovered
type-assertion panic (modelled by `none`) instead of a reported error. -/
theorem claimC8_build_panics_on_wrong_shape :
    BuildAccessGroupCondition [("email", GoValue.str "nope")] = none ∧
    BuildAccessGroupCondition [("email", GoValue.list [GoValue.bool true])] = none :=
  ⟨rfl, rfl⟩

/-! ### C4 -/

/-- C4: on a read whose API call fails with an error mentioning HTTP
status 404, `resourceCloudflareAccessGroupRead` clears the resource ID
and returns no error; on any other API error it returns the error
wrapped with context and leaves the resource state (in particular its
ID) unchanged. -/
theorem claimC4_read_error_handling (d : ResourceData) (e : String) :
    (strContainsSub e "HTTP status 404" = true →
      resourceCloudflareAccessGroupRead d (.error e) = some ({ d with id := "" }, none)) ∧
    (strContainsSub e "HTTP status 404" = false →
      resourceCloudflareAccessGroupRead d (.error e) =
        some (d, some ("error finding Access Group \"" ++ d.id ++ "\": " ++ e))) := by
  constructor
  · intro h
    simp [resourceCloudflareAccessGroupRead, h]
  · intro h
    simp [resourceCloudflareAccessGroupRead, h]

/-- Witness for C4 at a concrete 404 error and a concrete other error. -/
theorem claimC4_read_error_handling_witness :
    resourceCloudflareAccessGroupRead witResource (.error "HTTP status 404: not found") =
      some ({ witResource with id := "" }, none) ∧
    resourceCloudflareAccessGroupRead witResource (.error "HTTP status 500") =
      some (witResource, some "error finding Access Group \"gid\": HTTP status 500") :=
  ⟨(claimC4_read_error_handling witResource "HTTP status 404: not found").1 (by decide),
   (claimC4_read_error_handling witResource "HTTP status 500").2 (by decide)⟩

/-! ### Counterexamples for C1, C2, C5, C6 -/

/-- C1 counterexample: the saml kind does not round-trip — the
`identity_provider_id` of the original flattened block is dropped by
`TransformAccessGroupForSchema`, so the result differs from the input. -/
theorem claimC1_counterexample :
    roundTrip samlCexIn =
      some [("saml", GoValue.list [GoValue.map [("attribute_name", GoValue.str "a"),
        ("attribute_value", GoValue.str "v")]])] ∧
    roundTrip samlCexIn ≠ some samlCexIn := by
  refine ⟨rfl, ?_⟩
  intro h
  rw [show roundTrip samlCexIn =
    some [("saml", GoValue.list [GoValue.map [("attribute_name", GoValue.str "a"),
      ("attribute_value", GoValue.str "v")]])] from rfl] at h
  simp [samlCexIn] at h

/-- C2 counterexample: two `everyone` variants produce two `everyone`
entries in the output of `TransformAccessGroupForSchema`, so same-kind
entries are not always merged into a single one. -/
theorem claimC2_counterexample :
    TransformAccessGroupForSchema everyoneTwice =
      some [("everyone", SchemaVal.vBool true), ("everyone", SchemaVal.vBool true)] ∧
    (([("everyone", SchemaVal.vBool true), ("everyone", SchemaVal.vBool true)]).map
      Prod.fst).count "everyone" = 2 :=
  ⟨rfl, by decide⟩

/-- C5 counterexample: after scanning an okta variant with an empty
identity provider ID the `oktaGroups` accumulator is non-empty, yet
`TransformAccessGroupForSchema` emits no entry at all. -/
theorem claimC5_counterexample :
    (scanFrom initState oktaEmptyIdIn).map (fun st => st.oktaGroups) = some ["grp"] ∧
    TransformAccessGroupForSchema oktaEmptyIdIn = some [] :=
  ⟨rfl, rfl⟩

/-- C6 counterexample: two inputs holding the same variants in different
orders (`everyone` and `certificate`) produce output entries in two
different key orders, because those entries are appended during the scan
in input order. -/
theorem claimC6_counterexample :
    evCertIn.Perm certEvIn ∧
    TransformAccessGroupForSchema evCertIn =
      some [("everyone", SchemaVal.vBool true), ("certificate", SchemaVal.vBool true)] ∧
    TransformAccessGroupForSchema certEvIn =
      some [("certificate", SchemaVal.vBool true), ("everyone", SchemaVal.vBool true)] ∧
    ([("everyone", SchemaVal.vBool true), ("certificate", SchemaVal.vBool true)]).map Prod.fst ≠
      ([("certificate", SchemaVal.vBool true), ("everyone", SchemaVal.vBool true)]).map Prod.fst := by
  refine ⟨?_, rfl, rfl, by decide⟩
  unfold evCertIn certEvIn
  exact List.Perm.swap _ _ _

/-! ### WAF rules data source lemmas -/

theorem ruleMatches_eq (filter : searchFilterWAFRules) (r : WAFRule) :
    ruleMatches filter r =
      ((!(filter.GroupID != "" && filter.GroupID != r.groupId)) &&
        ((!(match filter.Description with | some m => !m r.description | none => false)) &&
          (!(filter.Mode != "" && filter.Mode != r.mode)))) := by
  rcases hD : filter.Description with _ | m <;>
    simp [ruleMatches, hD, Bool.not_and, Bool.not_not, bne, Bool.and_assoc]

theorem wafRulesLoop_eq (filter : searchFilterWAFRules) (pkgID : String) :
    ∀ (rs : List WAFRule) (fg : Bool),
      wafRulesLoop filter pkgID rs fg =
        ((rs.filter (ruleMatches filter)).map (mkRuleDetail pkgID),
         (rs.filter (ruleMatches filter)).map (fun r => r.id),
         fg || (filter.GroupID != "" && rs.any (fun r => filter.GroupID == r.groupId))) := by
  intro rs
  induction rs with
  | nil => intro fg; simp [wafRulesLoop]
  | cons r t ih =>
    intro fg
    by_cases hG : filter.GroupID = ""
    · have c1 : (filter.GroupID != "" && filter.GroupID != r.groupId) = false := by simp [hG]
      have hgn : (filter.GroupID != "") = false := by simp [hG]
      by_cases h2 : (match filter.Description with
          | some m => !m r.description | none => false) = true
      · have hm : ruleMatches filter r = false := by simp [ruleMatches_eq, h2]
        simp [wafRulesLoop, c1, hgn, h2, ih, hm, List.filter_cons, hG]
      · have h2f := Bool.eq_false_iff.2 h2
        by_cases h3 : (filter.Mode != "" && filter.Mode != r.mode) = true
        · have hm : ruleMatches filter r = false := by simp [ruleMatches_eq, h3]
          simp [wafRulesLoop, c1, hgn, h2f, h3, ih, hm, List.filter_cons, hG]
        · have h3f := Bool.eq_false_iff.2 h3
          have hm : ruleMatches filter r = true := by simp [ruleMatches_eq, c1, h2f, h3f]
          simp [wafRulesLoop, c1, hgn, h2f, h3f, ih, hm, List.filter_cons, hG]
    · have hgn : (filter.GroupID != "") = true := by simp [bne_iff_ne, hG]
      by_cases hR : filter.GroupID = r.groupId
      · have c1 : (filter.GroupID != "" && filter.GroupID != r.groupId) = false := by simp [hR]
        have hgr : (filter.GroupID == r.groupId) = true := by simp [hR]
        have hGr : ¬r.groupId = "" := hR ▸ hG
        by_cases h2 : (match filter.Description with
            | some m => !m r.description | none => false) = true
        · have hm : ruleMatches filter r = false := by simp [ruleMatches_eq, h2]
          simp [wafRulesLoop, c1, hgn, hgr, h2, ih, hm, List.filter_cons, List.any_cons, hR, hGr]
        · have h2f := Bool.eq_false_iff.2 h2
          by_cases h3 : (filter.Mode != "" && filter.Mode != r.mode) = true
          · have hm : ruleMatches filter r = false := by simp [ruleMatches_eq, h3]
            simp [wafRulesLoop, c1, hgn, hgr, h2f, h3, ih, hm, List.filter_cons, List.any_cons,
              hR, hGr]
          · have h3f := Bool.eq_false_iff.2 h3
            have hm : ruleMatches filter r = true := by
              simp [ruleMatches_eq, c1, h2f, h3f]
            simp [wafRulesLoop, c1, hgn, hgr, h2f, h3f, ih, hm, List.filter_cons, List.any_cons,
              hR, hGr]
      · have c1 : (filter.GroupID != "" && filter.GroupID != r.groupId) = true := by
          simp [bne_iff_ne, hG, hR]
        have hgr : (filter.GroupID == r.groupId) = false := by simp [hR]
        have hm : ruleMatches filter r = false := by simp [ruleMatches_eq, c1]
        simp [wafRulesLoop, c1, ih, hm, hgr, hgn, List.filter_cons, List.any_cons, hR]

theorem mkRuleDetail_inj {p p' : String} {r r' : WAFRule} :
    mkRuleDetail p r = mkRuleDetail p' r' ↔ p = p' ∧ r = r' := by
  cases r
  cases r'
  constructor
  · intro h
    simp [mkRuleDetail, WAFRuleDetail.mk.injEq] at h
    simp [WAFRule.mk.injEq]
    tauto
  · intro h
    rw [h.1, h.2]

/-! ### C3 -/

/-- C3: in the WAF rules read, once the `group_id` filter is set and some
rule of a package matches it, the per-package scan stops: with no match
in the packages before `p` and a match in `p`, exactly the packages up
to and including `p` are queried for rules, and none after `p`. -/
theorem claimC3_early_exit (filter : searchFilterWAFRules) (rulesOf : String → List WAFRule)
    (pre : List String) (p : String) (post : List String)
    (hg : filter.GroupID ≠ "")
    (hpre : ∀ q ∈ pre, (rulesOf q).any (fun r => filter.GroupID == r.groupId) = false)
    (hp : (rulesOf p).any (fun r => filter.GroupID == r.groupId) = true) :
    (wafRulesScan filter rulesOf (pre ++ p :: post)).2.2 = pre ++ [p] := by
  induction pre with
  | nil =>
    simp only [List.nil_append]
    simp [wafRulesScan, wafRulesLoop_eq, hp, bne_iff_ne, hg]
  | cons q pre' ih =>
    have hq := hpre q (List.mem_cons_self q pre')
    simp only [List.cons_append]
    simp [wafRulesScan, wafRulesLoop_eq, hq,
      ih (fun x hx => hpre x (List.mem_cons_of_mem q hx))]

/-- Witness for C3: with the group filter `g1`, no match in package `p0`
and a match in package `p1`, only `p0` and `p1` are queried and `p2` is
not. -/
theorem claimC3_early_exit_witness :
    (wafRulesScan wafWitFilter wafWitRulesOf ["p0", "p1", "p2"]).2.2 = ["p0", "p1"] :=
  claimC3_early_exit wafWitFilter wafWitRulesOf ["p0"] "p1" ["p2"] (by decide)
    (by decide) (by decide)

/-! ### C7 -/

/-- C7: a rule detail for rule `r` of package `pid` occurs in the rules
list emitted by the WAF rules read if and only if `pid` was actually
scanned, `r` is one of its rules, and `r` passes the conjunction of the
three filters (description match, mode equality, group-ID equality,
each vacuous when unset). -/
theorem claimC7_filter_conjunction (filter : searchFilterWAFRules)
    (rulesOf : String → List WAFRule) (pkgs : List String) (pid : String) (r : WAFRule) :
    mkRuleDetail pid r ∈ (wafRulesScan filter rulesOf pkgs).1 ↔
      (pid ∈ (wafRulesScan filter rulesOf pkgs).2.2 ∧ r ∈ rulesOf pid ∧
        ruleMatches filter r = true) := by
  induction pkgs with
  | nil => simp [wafRulesScan]
  | cons q rest ih =>
    by_cases hfg : ((false : Bool) ||
        (filter.GroupID != "" && (rulesOf q).any (fun r => filter.GroupID == r.groupId))) = true
    · simp only [wafRulesScan, wafRulesLoop_eq, hfg, if_pos]
      simp only [List.mem_map, List.mem_filter, List.mem_singleton]
      constructor
      · rintro ⟨r', ⟨hr', hm'⟩, he⟩
        rcases mkRuleDetail_inj.1 he with ⟨hpq, hrr⟩
        subst hpq
        subst hrr
        exact ⟨rfl, hr', hm'⟩
      · rintro ⟨hpq, hr, hm⟩
        subst hpq
        exact ⟨r, ⟨hr, hm⟩, rfl⟩
    · have hfg' : ((false : Bool) ||
          (filter.GroupID != "" && (rulesOf q).any (fun r => filter.GroupID == r.groupId))) =
            false := Bool.eq_false_iff.2 hfg
      simp only [wafRulesScan, wafRulesLoop_eq, hfg', Bool.false_eq_true, if_false,
        List.mem_append, List.mem_map, List.mem_filter, List.mem_cons, ih]
      constructor
      · rintro (⟨r', ⟨hr', hm'⟩, he⟩ | ⟨hq, hr, hm⟩)
        · rcases mkRuleDetail_inj.1 he with ⟨hpq, hrr⟩
          subst hpq
          subst hrr
          exact ⟨Or.inl rfl, hr', hm'⟩
        · exact ⟨Or.inr hq, hr, hm⟩
      · rintro ⟨hq | hq, hr, hm⟩
        · subst hq
          exact Or.inl ⟨r, ⟨hr, hm⟩, rfl⟩
        · exact Or.inr ⟨hq, hr, hm⟩

/-! ### Transform scan-state lemmas -/

theorem processKey_everyone (st : TransformState) (v : GoValue) :
    processKey st "everyone" v =
      some { st with data := st.data ++ [("everyone", SchemaVal.vBool true)] } := rfl

theorem processKey_anyValidServiceToken (st : TransformState) (v : GoValue) :
    processKey st "any_valid_service_token" v =
      some { st with data := st.data ++ [("any_valid_service_token", SchemaVal.vBool true)] } := rfl

theorem processKey_certificate (st : TransformState) (v : GoValue) :
    processKey st "certificate" v =
      some { st with data := st.data ++ [("certificate", SchemaVal.vBool true)] } := rfl

theorem processKey_email (st : TransformState) (v : GoValue) :
    processKey st "email" v =
      (innerStrings v).map fun l => { st with emails := st.emails ++ l } := rfl

theorem processKey_emailDomain (st : TransformState) (v : GoValue) :
    processKey st "email_domain" v =
      (innerStrings v).map fun l => { st with emailDomains := st.emailDomains ++ l } := rfl

theorem processKey_ip (st : TransformState) (v : GoValue) :
    processKey st "ip" v =
      (innerStrings v).map fun l => { st with ips := st.ips ++ l } := rfl

theorem processKey_serviceToken (st : TransformState) (v : GoValue) :
    processKey st "service_token" v =
      (innerStrings v).map fun l => { st with serviceTokens := st.serviceTokens ++ l } := rfl

theorem processKey_commonName (st : TransformState) (v : GoValue) :
    processKey st "common_name" v =
      (innerStrings v).map fun l =>
        { st with commonName := l.foldl (fun _ x => x) st.commonName } := rfl

theorem processKey_authMethod (st : TransformState) (v : GoValue) :
    processKey st "auth_method" v =
      (innerStrings v).map fun l =>
        { st with authMethod := l.foldl (fun _ x => x) st.authMethod } := rfl

theorem processKey_geo (st : TransformState) (v : GoValue) :
    processKey st "geo" v =
      (innerStrings v).map fun l => { st with geos := st.geos ++ l } := rfl

theorem processKey_loginMethod (st : TransformState) (v : GoValue) :
    processKey st "login_method" v =
      (innerStrings v).map fun l => { st with loginMethod := st.loginMethod ++ l } := rfl

theorem processKey_okta (st : TransformState) (v : GoValue) :
    processKey st "okta" v =
      (asMap v).bind fun cfg =>
        ((lookupGo cfg "identity_provider_id").bind asString).bind fun idpID =>
          ((lookupGo cfg "name").bind asString).bind fun n =>
            some { st with oktaID := idpID, oktaGroups := st.oktaGroups ++ [n] } := rfl

theorem processKey_gsuite (st : TransformState) (v : GoValue) :
    processKey st "gsuite" v =
      (asMap v).bind fun cfg =>
        ((lookupGo cfg "identity_provider_id").bind asString).bind fun idpID =>
          ((lookupGo cfg "email").bind asString).bind fun e =>
            some { st with gsuiteID := idpID, gsuiteEmails := st.gsuiteEmails ++ [e] } := rfl

theorem processKey_githubOrganization (st : TransformState) (v : GoValue) :
    processKey st "github-organization" v =
      (asMap v).bind fun cfg =>
        ((lookupGo cfg "identity_provider_id").bind asString).bind fun idpID =>
          ((lookupGo cfg "name").bind asString).bind fun n =>
            match lookupGo cfg "team" with
            | some tv => (asString tv).bind fun t =>
                some { st with githubID := idpID, githubName := n
                               githubTeams := st.githubTeams ++ [t] }
            | none => some { st with githubID := idpID, githubName := n } := rfl

theorem processKey_azureAD (st : TransformState) (v : GoValue) :
    processKey st "azureAD" v =
      (asMap v).bind fun cfg =>
        ((lookupGo cfg "identity_provider_id").bind asString).bind fun idpID =>
          ((lookupGo cfg "id").bind asString).bind fun i =>
            some { st with azureID := idpID, azureIDs := st.azureIDs ++ [i] } := rfl

theorem processKey_saml (st : TransformState) (v : GoValue) :
    processKey st "saml" v =
      (asMap v).bind fun cfg =>
        ((lookupGo cfg "attribute_name").bind asString).bind fun an =>
          ((lookupGo cfg "attribute_value").bind asString).bind fun av =>
            some { st with samlAttrName := an, samlAttrValue := av } := rfl

theorem processKey_externalEvaluation (st : TransformState) (v : GoValue) :
    processKey st "external_evaluation" v =
      (asMap v).bind fun cfg =>
        ((lookupGo cfg "evaluate_url").bind asString).bind fun eu =>
          ((lookupGo cfg "keys_url").bind asString).bind fun ku =>
            some { st with externalEvaluationURL := eu, externalEvaluationKeysURL := ku } := rfl

theorem processKey_group (st : TransformState) (v : GoValue) :
    processKey st "group" v =
      (innerStrings v).map fun l => { st with groups := st.groups ++ l } := rfl

theorem processKey_devicePosture (st : TransformState) (v : GoValue) :
    processKey st "device_posture" v =
      (innerStrings v).map fun l =>
        { st with devicePostureRuleIDs := st.devicePostureRuleIDs ++ l } := rfl

theorem processKey_default (st : TransformState) (k : String) (v : GoValue)
    (h1 : k ≠ "everyone") (h2 : k ≠ "any_valid_service_token") (h3 : k ≠ "certificate")
    (h4 : k ≠ "email") (h5 : k ≠ "email_domain") (h6 : k ≠ "ip") (h7 : k ≠ "service_token")
    (h8 : k ≠ "common_name") (h9 : k ≠ "auth_method") (h10 : k ≠ "geo")
    (h11 : k ≠ "login_method") (h12 : k ≠ "okta") (h13 : k ≠ "gsuite")
    (h14 : k ≠ "github-organization") (h15 : k ≠ "azureAD") (h16 : k ≠ "saml")
    (h17 : k ≠ "external_evaluation") (h18 : k ≠ "group") (h19 : k ≠ "device_posture") :
    processKey st k v = some st := by
  rw [processKey.eq_def]
  rw [if_neg (by simp [h1, h2, h3])]
  rw [if_neg h4, if_neg h5, if_neg h6, if_neg h7, if_neg h8, if_neg h9, if_neg h10, if_neg h11,
    if_neg h12, if_neg h13, if_neg h14, if_neg h15, if_neg h16, if_neg h17, if_neg h18,
    if_neg h19]

theorem processKey_data (st : TransformState) (k : String) (v : GoValue)
    (st' : TransformState) (h : processKey st k v = some st') :
    st'.data = st.data ∨ (st'.data = st.data ++ [(k, SchemaVal.vBool true)] ∧ k ∈ boolKinds) := by
  by_cases hk1 : k = "everyone"
  · subst hk1
    rw [processKey_everyone] at h
    injection h with h
    subst h
    exact Or.inr ⟨rfl, by simp [boolKinds]⟩
  by_cases hk2 : k = "any_valid_service_token"
  · subst hk2
    rw [processKey_anyValidServiceToken] at h
    injection h with h
    subst h
    exact Or.inr ⟨rfl, by simp [boolKinds]⟩
  by_cases hk3 : k = "certificate"
  · subst hk3
    rw [processKey_certificate] at h
    injection h with h
    subst h
    exact Or.inr ⟨rfl, by simp [boolKinds]⟩
  by_cases hk4 : k = "email"
  · subst hk4
    rw [processKey_email] at h
    rcases Option.map_eq_some'.1 h with ⟨l, -, rfl⟩
    exact Or.inl rfl
  by_cases hk5 : k = "email_domain"
  · subst hk5
    rw [processKey_emailDomain] at h
    rcases Option.map_eq_some'.1 h with ⟨l, -, rfl⟩
    exact Or.inl rfl
  by_cases hk6 : k = "ip"
  · subst hk6
    rw [processKey_ip] at h
    rcases Option.map_eq_some'.1 h with ⟨l, -, rfl⟩
    exact Or.inl rfl
  by_cases hk7 : k = "service_token"
  · subst hk7
    rw [processKey_serviceToken] at h
    rcases Option.map_eq_some'.1 h with ⟨l, -, rfl⟩
    exact Or.inl rfl
  by_cases hk8 : k = "common_name"
  · subst hk8
    rw [processKey_commonName] at h
    rcases Option.map_eq_some'.1 h with ⟨l, -, rfl⟩
    exact Or.inl rfl
  by_cases hk9 : k = "auth_method"
  · subst hk9
    rw [processKey_authMethod] at h
    rcases Option.map_eq_some'.1 h with ⟨l, -, rfl⟩
    exact Or.inl rfl
  by_cases hk10 : k = "geo"
  · subst hk10
    rw [processKey_geo] at h
    rcases Option.map_eq_some'.1 h with ⟨l, -, rfl⟩
    exact Or.inl rfl
  by_cases hk11 : k = "login_method"
  · subst hk11
    rw [processKey_loginMethod] at h
    rcases Option.map_eq_some'.1 h with ⟨l, -, rfl⟩
    exact Or.inl rfl
  by_cases hk12 : k = "okta"
  · subst hk12
    rw [processKey_okta] at h
    simp only [Option.bind_eq_some] at h
    obtain ⟨c1, -, c2, -, c3, -, h⟩ := h
    injection h with h
    subst h
    exact Or.inl rfl
  by_cases hk13 : k = "gsuite"
  · subst hk13
    rw [processKey_gsuite] at h
    simp only [Option.bind_eq_some] at h
    obtain ⟨c1, -, c2, -, c3, -, h⟩ := h
    injection h with h
    subst h
    exact Or.inl rfl
  by_cases hk14 : k = "github-organization"
  · subst hk14
    rw [processKey_githubOrganization] at h
    simp only [Option.bind_eq_some] at h
    obtain ⟨c1, -, c2, -, c3, -, h⟩ := h
    split at h
    · simp only [Option.bind_eq_some] at h
      obtain ⟨t, -, h⟩ := h
      injection h with h
      subst h
      exact Or.inl rfl
    · injection h with h
      subst h
      exact Or.inl rfl
  by_cases hk15 : k = "azureAD"
  · subst hk15
    rw [processKey_azureAD] at h
    simp only [Option.bind_eq_some] at h
    obtain ⟨c1, -, c2, -, c3, -, h⟩ := h
    injection h with h
    subst h
    exact Or.inl rfl
  by_cases hk16 : k = "saml"
  · subst hk16
    rw [processKey_saml] at h
    simp only [Option.bind_eq_some] at h
    obtain ⟨c1, -, c2, -, c3, -, h⟩ := h
    injection h with h
    subst h
    exact Or.inl rfl
  by_cases hk17 : k = "external_evaluation"
  · subst hk17
    rw [processKey_externalEvaluation] at h
    simp only [Option.bind_eq_some] at h
    obtain ⟨c1, -, c2, -, c3, -, h⟩ := h
    injection h with h
    subst h
    exact Or.inl rfl
  by_cases hk18 : k = "group"
  · subst hk18
    rw [processKey_group] at h
    rcases Option.map_eq_some'.1 h with ⟨l, -, rfl⟩
    exact Or.inl rfl
  by_cases hk19 : k = "device_posture"
  · subst hk19
    rw [processKey_devicePosture] at h
    rcases Option.map_eq_some'.1 h with ⟨l, -, rfl⟩
    exact Or.inl rfl
  rw [processKey_default st k v hk1 hk2 hk3 hk4 hk5 hk6 hk7 hk8 hk9 hk10 hk11 hk12 hk13
    hk14 hk15 hk16 hk17 hk18 hk19] at h
  injection h with h
  subst h
  exact Or.inl rfl

theorem processKeys_cons (st : TransformState) (k : String) (v : GoValue)
    (rest : List (String × GoValue)) :
    processKeys st ((k, v) :: rest) = (processKey st k v).bind fun st1 => processKeys st1 rest :=
  rfl

theorem scanFrom_cons (st : TransformState) (g : GoValue) (rest : List GoValue) :
    scanFrom st (g :: rest) = (processVariant st g).bind fun st1 => scanFrom st1 rest :=
  rfl

theorem processVariant_eq (st : TransformState) (g : GoValue) :
    processVariant st g = (asMap g).bind fun kvs => processKeys st kvs :=
  rfl

theorem processKeys_data :
    ∀ (kvs : List (String × GoValue)) (st st' : TransformState),
      processKeys st kvs = some st' → ∀ p ∈ st'.data, p ∈ st.data ∨ p.1 ∈ boolKinds := by
  intro kvs
  induction kvs with
  | nil =>
    intro st st' h p hp
    injection h with h
    subst h
    exact Or.inl hp
  | cons kv rest ih =>
    intro st st' h p hp
    obtain ⟨k, v⟩ := kv
    rw [processKeys_cons] at h
    obtain ⟨st1, h1, h2⟩ := Option.bind_eq_some.1 h
    rcases ih st1 st' h2 p hp with hmem | hb
    · rcases processKey_data st k v st1 h1 with hd | ⟨hd, hk⟩
      · rw [hd] at hmem
        exact Or.inl hmem
      · rw [hd] at hmem
        rcases List.mem_append.1 hmem with hmem | hmem
        · exact Or.inl hmem
        · rcases List.mem_singleton.1 hmem with rfl
          exact Or.inr hk
    · exact Or.inr hb

theorem scanFrom_data :
    ∀ (l : List GoValue) (st st' : TransformState),
      scanFrom st l = some st' → ∀ p ∈ st'.data, p ∈ st.data ∨ p.1 ∈ boolKinds := by
  intro l
  induction l with
  | nil =>
    intro st st' h p hp
    injection h with h
    subst h
    exact Or.inl hp
  | cons g rest ih =>
    intro st st' h p hp
    rw [scanFrom_cons] at h
    obtain ⟨st1, hv, h2⟩ := Option.bind_eq_some.1 h
    rw [processVariant_eq] at hv
    obtain ⟨kvs, -, h1⟩ := Option.bind_eq_some.1 hv
    rcases ih st1 st' h2 p hp with hmem | hb
    · rcases processKeys_data kvs st st1 h1 p hmem with hmem' | hb
      · exact Or.inl hmem'
      · exact Or.inr hb
    · exact Or.inr hb

theorem scanFrom_initState_data (input : List GoValue) (st : TransformState)
    (h : scanFrom initState input = some st) : ∀ p ∈ st.data, p.1 ∈ boolKinds := by
  intro p hp
  rcases scanFrom_data input initState st h p hp with hmem | hb
  · simp [initState] at hmem
  · exact hb

/-! ### Emit phase lemmas -/

theorem emitIf_fst_count (c : Bool) (k k' : String) (v : SchemaVal) :
    ((emitIf c (k', v)).map Prod.fst).count k = if c = true ∧ k = k' then 1 else 0 := by
  cases c <;> by_cases hk : k = k' <;>
    simp [emitIf, hk, List.count_cons, List.count_nil, beq_iff_eq, eq_comm]

theorem emitPhase_fst_count (st : TransformState) (k : String) :
    ((emitPhase st).map Prod.fst).count k = if emitGuard st k = true then 1 else 0 := by
  rcases eq_or_ne k "email" with rfl | h1
  · simp [emitPhase, emitGuard, List.map_append, List.count_append, emitIf_fst_count]
  rcases eq_or_ne k "email_domain" with rfl | h2
  · simp [emitPhase, emitGuard, List.map_append, List.count_append, emitIf_fst_count]
  rcases eq_or_ne k "ip" with rfl | h3
  · simp [emitPhase, emitGuard, List.map_append, List.count_append, emitIf_fst_count]
  rcases eq_or_ne k "service_token" with rfl | h4
  · simp [emitPhase, emitGuard, List.map_append, List.count_append, emitIf_fst_count]
  rcases eq_or_ne k "common_name" with rfl | h5
  · simp [emitPhase, emitGuard, List.map_append, List.count_append, emitIf_fst_count]
  rcases eq_or_ne k "auth_method" with rfl | h6
  · simp [emitPhase, emitGuard, List.map_append, List.count_append, emitIf_fst_count]
  rcases eq_or_ne k "geo" with rfl | h7
  · simp [emitPhase, emitGuard, List.map_append, List.count_append, emitIf_fst_count]
  rcases eq_or_ne k "login_method" with rfl | h8
  · simp [emitPhase, emitGuard, List.map_append, List.count_append, emitIf_fst_count]
  rcases eq_or_ne k "okta" with rfl | h9
  · simp [emitPhase, emitGuard, List.map_append, List.count_append, emitIf_fst_count]
  rcases eq_or_ne k "gsuite" with rfl | h10
  · simp [emitPhase, emitGuard, List.map_append, List.count_append, emitIf_fst_count]
  rcases eq_or_ne k "github" with rfl | h11
  · simp [emitPhase, emitGuard, List.map_append, List.count_append, emitIf_fst_count]
  rcases eq_or_ne k "azure" with rfl | h12
  · simp [emitPhase, emitGuard, List.map_append, List.count_append, emitIf_fst_count]
  rcases eq_or_ne k "saml" with rfl | h13
  · simp [emitPhase, emitGuard, List.map_append, List.count_append, emitIf_fst_count]
  rcases eq_or_ne k "external_evaluation" with rfl | h14
  · simp [emitPhase, emitGuard, List.map_append, List.count_append, emitIf_fst_count]
  rcases eq_or_ne k "group" with rfl | h15
  · simp [emitPhase, emitGuard, List.map_append, List.count_append, emitIf_fst_count]
  rcases eq_or_ne k "device_posture" with rfl | h16
  · simp [emitPhase, emitGuard, List.map_append, List.count_append, emitIf_fst_count]
  simp [emitPhase, emitGuard, List.map_append, List.count_append, emitIf_fst_count,
    h1, h2, h3, h4, h5, h6, h7, h8, h9, h10, h11, h12, h13, h14, h15, h16]

theorem emitIf_fst_sublist (c : Bool) (e : String × SchemaVal) :
    List.Sublist ((emitIf c e).map Prod.fst) [e.1] := by
  cases c <;> simp [emitIf]

theorem emitPhase_fst_sublist (st : TransformState) :
    List.Sublist ((emitPhase st).map Prod.fst) emitKeyOrder := by
  have h : emitKeyOrder =
      ["email"] ++ ["email_domain"] ++ ["ip"] ++ ["service_token"] ++ ["common_name"] ++
      ["auth_method"] ++ ["geo"] ++ ["login_method"] ++ ["okta"] ++ ["gsuite"] ++ ["github"] ++
      ["azure"] ++ ["saml"] ++ ["external_evaluation"] ++ ["group"] ++ ["device_posture"] := rfl
  rw [h]
  simp only [emitPhase, List.map_append]
  repeat refine List.Sublist.append ?_ (emitIf_fst_sublist _ _)
  exact emitIf_fst_sublist _ _

theorem TransformAccessGroupForSchema_eq (input : List GoValue) :
    TransformAccessGroupForSchema input =
      (scanFrom initState input).bind fun st => some (st.data ++ emitPhase st) := rfl

/-! ### C2 -/

/-- C2 (amended): for every condition kind other than the boolean kinds
`everyone`, `any_valid_service_token` and `certificate` (whose entries
are appended during the scan once per variant, not merged), the output
of `TransformAccessGroupForSchema` contains at most one entry with that
kind's key: same-kind variants are merged by the emit phase into a
single entry holding all matched values. -/
theorem claimC2_merge_amended (input : List GoValue) (out : List (String × SchemaVal))
    (k : String) (h : TransformAccessGroupForSchema input = some out)
    (hk : k ∉ boolKinds) : (out.map Prod.fst).count k ≤ 1 := by
  rw [TransformAccessGroupForSchema_eq] at h
  obtain ⟨st, hscan, hout⟩ := Option.bind_eq_some.1 h
  injection hout with hout
  subst hout
  rw [List.map_append, List.count_append]
  have hdata : ((st.data).map Prod.fst).count k = 0 := by
    rw [List.count_eq_zero]
    intro hmem
    rcases List.mem_map.1 hmem with ⟨p, hp, rfl⟩
    exact hk (scanFrom_initState_data input st hscan p hp)
  rw [hdata, emitPhase_fst_count]
  split <;> simp

/-- Witness for C2 at a single-email input. -/
theorem claimC2_merge_amended_witness : (witOut.map Prod.fst).count "email" ≤ 1 :=
  claimC2_merge_amended witIn witOut "email" rfl (by decide)

/-! ### C5 -/

/-- C5 (amended): for every kind other than the boolean kinds, the
output of `TransformAccessGroupForSchema` contains exactly one entry
with that key when the kind's emit guard holds in the final scan state —
a non-empty accumulator, together with a non-empty companion
identity-provider/second field for okta, gsuite, github, azure, saml and
external_evaluation, and a non-empty string for common_name and
auth_method — and no entry otherwise. -/
theorem claimC5_emit_guard_amended (input : List GoValue) (st : TransformState)
    (out : List (String × SchemaVal)) (hscan : scanFrom initState input = some st)
    (hout : TransformAccessGroupForSchema input = some out) (k : String)
    (hk : k ∉ boolKinds) :
    (out.map Prod.fst).count k = if emitGuard st k = true then 1 else 0 := by
  rw [TransformAccessGroupForSchema_eq, hscan, Option.some_bind] at hout
  injection hout with hout
  subst hout
  rw [List.map_append, List.count_append]
  have hdata : ((st.data).map Prod.fst).count k = 0 := by
    rw [List.count_eq_zero]
    intro hmem
    rcases List.mem_map.1 hmem with ⟨p, hp, rfl⟩
    exact hk (scanFrom_initState_data input st hscan p hp)
  rw [hdata, emitPhase_fst_count]
  simp

/-- Witness for C5 at a single-email input with the email guard set. -/
theorem claimC5_emit_guard_amended_witness :
    (witOut.map Prod.fst).count "email" = if emitGuard witSt "email" = true then 1 else 0 :=
  claimC5_emit_guard_amended witIn witSt witOut rfl rfl "email" (by decide)

/-! ### C6 -/

/-- C6 (amended): for every input — hence independently of the order of
the variants — the entries appended by the merging emit phase appear in
one fixed key order, the source order of the emit code: the output is
the scan-phase entries followed by the emit-phase entries, and the
emit-phase key list is always a sublist of `emitKeyOrder`.  The boolean
kinds' entries are instead appended during the scan in input order,
ahead of the emit-phase entries. -/
theorem claimC6_fixed_emit_order_amended (input : List GoValue) (st : TransformState)
    (hscan : scanFrom initState input = some st) :
    TransformAccessGroupForSchema input = some (st.data ++ emitPhase st) ∧
    List.Sublist ((emitPhase st).map Prod.fst) emitKeyOrder := by
  refine ⟨?_, emitPhase_fst_sublist st⟩
  rw [TransformAccessGroupForSchema_eq, hscan, Option.some_bind]

/-- Witness for C6 at a single-email input. -/
theorem claimC6_fixed_emit_order_amended_witness :
    TransformAccessGroupForSchema witIn = some (witSt.data ++ emitPhase witSt) ∧
    List.Sublist ((emitPhase witSt).map Prod.fst) emitKeyOrder :=
  claimC6_fixed_emit_order_amended witIn witSt rfl

/-! ### Build lemmas for the generic kinds -/

theorem optionMapM_map (g : β → Option γ) (f : α → β) (h : α → γ)
    (hg : ∀ a, g (f a) = some (h a)) : ∀ l : List α, optionMapM g (l.map f) = some (l.map h) := by
  intro l
  induction l with
  | nil => rfl
  | cons a t ih => simp [optionMapM, hg, ih]

theorem buildKind_email_eq (vs : List String) :
    buildKind "email" (strList vs) = some (vs.map Variant.email) := by
  have h : buildKind "email" (strList vs) =
      (optionMapM (buildGenericValue "email") (vs.map GoValue.str)).bind
        fun parts => some (flattenLists parts) := rfl
  rw [h, optionMapM_map (buildGenericValue "email") GoValue.str
    (fun s => [Variant.email s]) (fun _ => rfl) vs, Option.some_bind, flattenLists_map_singleton]

theorem buildKind_emailDomain_eq (vs : List String) :
    buildKind "email_domain" (strList vs) = some (vs.map Variant.emailDomain) := by
  have h : buildKind "email_domain" (strList vs) =
      (optionMapM (buildGenericValue "email_domain") (vs.map GoValue.str)).bind
        fun parts => some (flattenLists parts) := rfl
  rw [h, optionMapM_map (buildGenericValue "email_domain") GoValue.str
    (fun s => [Variant.emailDomain s]) (fun _ => rfl) vs, Option.some_bind,
    flattenLists_map_singleton]

theorem buildKind_ip_eq (vs : List String) :
    buildKind "ip" (strList vs) = some (vs.map Variant.ip) := by
  have h : buildKind "ip" (strList vs) =
      (optionMapM (buildGenericValue "ip") (vs.map GoValue.str)).bind
        fun parts => some (flattenLists parts) := rfl
  rw [h, optionMapM_map (buildGenericValue "ip") GoValue.str
    (fun s => [Variant.ip s]) (fun _ => rfl) vs, Option.some_bind, flattenLists_map_singleton]

theorem buildKind_serviceToken_eq (vs : List String) :
    buildKind "service_token" (strList vs) = some (vs.map Variant.serviceToken) := by
  have h : buildKind "service_token" (strList vs) =
      (optionMapM (buildGenericValue "service_token") (vs.map GoValue.str)).bind
        fun parts => some (flattenLists parts) := rfl
  rw [h, optionMapM_map (buildGenericValue "service_token") GoValue.str
    (fun s => [Variant.serviceToken s]) (fun _ => rfl) vs, Option.some_bind,
    flattenLists_map_singleton]

theorem buildKind_group_eq (vs : List String) :
    buildKind "group" (strList vs) = some (vs.map Variant.group) := by
  have h : buildKind "group" (strList vs) =
      (optionMapM (buildGenericValue "group") (vs.map GoValue.str)).bind
        fun parts => some (flattenLists parts) := rfl
  rw [h, optionMapM_map (buildGenericValue "group") GoValue.str
    (fun s => [Variant.group s]) (fun _ => rfl) vs, Option.some_bind, flattenLists_map_singleton]

theorem buildKind_geo_eq (vs : List String) :
    buildKind "geo" (strList vs) = some (vs.map Variant.geo) := by
  have h : buildKind "geo" (strList vs) =
      (optionMapM (buildGenericValue "geo") (vs.map GoValue.str)).bind
        fun parts => some (flattenLists parts) := rfl
  rw [h, optionMapM_map (buildGenericValue "geo") GoValue.str
    (fun s => [Variant.geo s]) (fun _ => rfl) vs, Option.some_bind, flattenLists_map_singleton]

theorem buildKind_loginMethod_eq (vs : List String) :
    buildKind "login_method" (strList vs) = some (vs.map Variant.loginMethod) := by
  have h : buildKind "login_method" (strList vs) =
      (optionMapM (buildGenericValue "login_method") (vs.map GoValue.str)).bind
        fun parts => some (flattenLists parts) := rfl
  rw [h, optionMapM_map (buildGenericValue "login_method") GoValue.str
    (fun s => [Variant.loginMethod s]) (fun _ => rfl) vs, Option.some_bind,
    flattenLists_map_singleton]

theorem buildKind_devicePosture_eq (vs : List String) :
    buildKind "device_posture" (strList vs) = some (vs.map Variant.devicePosture) := by
  have h : buildKind "device_posture" (strList vs) =
      (optionMapM (buildGenericValue "device_posture") (vs.map GoValue.str)).bind
        fun parts => some (flattenLists parts) := rfl
  rw [h, optionMapM_map (buildGenericValue "device_posture") GoValue.str
    (fun s => [Variant.devicePosture s]) (fun _ => rfl) vs, Option.some_bind,
    flattenLists_map_singleton]

/-! ### C9 -/

/-- C9: for each condition kind without bespoke handling — email,
email_domain, ip, service_token, group, geo, login_method,
device_posture — `BuildAccessGroupCondition` expands the kind's value
list into exactly one variant record per value, preserving order. -/
theorem claimC9_generic_one_variant_per_value :
    (∀ vs : List String, BuildAccessGroupCondition [("email", strList vs)] =
      some (vs.map Variant.email)) ∧
    (∀ vs : List String, BuildAccessGroupCondition [("email_domain", strList vs)] =
      some (vs.map Variant.emailDomain)) ∧
    (∀ vs : List String, BuildAccessGroupCondition [("ip", strList vs)] =
      some (vs.map Variant.ip)) ∧
    (∀ vs : List String, BuildAccessGroupCondition [("service_token", strList vs)] =
      some (vs.map Variant.serviceToken)) ∧
    (∀ vs : List String, BuildAccessGroupCondition [("group", strList vs)] =
      some (vs.map Variant.group)) ∧
    (∀ vs : List String, BuildAccessGroupCondition [("geo", strList vs)] =
      some (vs.map Variant.geo)) ∧
    (∀ vs : List String, BuildAccessGroupCondition [("login_method", strList vs)] =
      some (vs.map Variant.loginMethod)) ∧
    (∀ vs : List String, BuildAccessGroupCondition [("device_posture", strList vs)] =
      some (vs.map Variant.devicePosture)) :=
  ⟨fun vs => by rw [BuildAccessGroupCondition_single, buildKind_email_eq],
   fun vs => by rw [BuildAccessGroupCondition_single, buildKind_emailDomain_eq],
   fun vs => by rw [BuildAccessGroupCondition_single, buildKind_ip_eq],
   fun vs => by rw [BuildAccessGroupCondition_single, buildKind_serviceToken_eq],
   fun vs => by rw [BuildAccessGroupCondition_single, buildKind_group_eq],
   fun vs => by rw [BuildAccessGroupCondition_single, buildKind_geo_eq],
   fun vs => by rw [BuildAccessGroupCondition_single, buildKind_loginMethod_eq],
   fun vs => by rw [BuildAccessGroupCondition_single, buildKind_devicePosture_eq]⟩

/-! ### C10 -/

theorem condBlocksFold_none (cur : List Variant) :
    ∀ post : List (Option (List (String × GoValue))),
      (∀ b ∈ post, b = none) → condBlocksFold cur post = some cur := by
  intro post
  induction post with
  | nil => intro _; rfl
  | cons b rest ih =>
    intro h
    have hb := h b (List.mem_cons_self b rest)
    subst hb
    exact ih fun x hx => h x (List.mem_cons_of_mem _ hx)

theorem condBlocksFold_last :
    ∀ (pre : List (Option (List (String × GoValue)))) (cur : List Variant)
      (m : List (String × GoValue)) (post : List (Option (List (String × GoValue))))
      (r l : List Variant),
      condBlocksFold cur (pre ++ some m :: post) = some r →
      (∀ b ∈ post, b = none) → BuildAccessGroupCondition m = some l → r = l := by
  intro pre
  induction pre with
  | nil =>
    intro cur m post r l h hpost hm
    rw [List.nil_append,
      show condBlocksFold cur (some m :: post) =
        (BuildAccessGroupCondition m).bind fun built => condBlocksFold built post from rfl,
      hm, Option.some_bind, condBlocksFold_none l post hpost] at h
    injection h with h
    exact h.symm
  | cons b pre' ih =>
    intro cur m post r l h hpost hm
    cases b with
    | none =>
      rw [List.cons_append,
        show condBlocksFold cur (none :: (pre' ++ some m :: post)) =
          condBlocksFold cur (pre' ++ some m :: post) from rfl] at h
      exact ih cur m post r l h hpost hm
    | some m0 =>
      rw [List.cons_append,
        show condBlocksFold cur (some m0 :: (pre' ++ some m :: post)) =
          (BuildAccessGroupCondition m0).bind fun built =>
            condBlocksFold built (pre' ++ some m :: post) from rfl] at h
      obtain ⟨x, -, h⟩ := Option.bind_eq_some.1 h
      exact ih x m post r l h hpost hm

theorem appendConditionalAccessGroupFields_eq (g : AccessGroup)
    (e r i : List (Option (List (String × GoValue)))) :
    appendConditionalAccessGroupFields g e r i =
      (condBlocksFold g.Exclude e).bind fun exc =>
        (condBlocksFold g.Require r).bind fun req =>
          (condBlocksFold g.Include i).bind fun inc =>
            some { g with Exclude := exc, Require := req, Include := inc } := rfl

/-- C10: in `appendConditionalAccessGroupFields`, when the `exclude`,
`require` or `include` list holds several non-nil blocks, only the
conditions built from the last non-nil block remain on the resulting
group — each iteration overwrites the field instead of appending, so
earlier blocks are silently discarded. -/
theorem claimC10_last_block_wins :
    (∀ (g : AccessGroup) (excludeL requireL includeL : List (Option (List (String × GoValue))))
      (g' : AccessGroup) (pre : List (Option (List (String × GoValue))))
      (m : List (String × GoValue)) (post : List (Option (List (String × GoValue))))
      (l : List Variant),
      appendConditionalAccessGroupFields g excludeL requireL includeL = some g' →
      excludeL = pre ++ some m :: post → (∀ b ∈ post, b = none) →
      BuildAccessGroupCondition m = some l → g'.Exclude = l) ∧
    (∀ (g : AccessGroup) (excludeL requireL includeL : List (Option (List (String × GoValue))))
      (g' : AccessGroup) (pre : List (Option (List (String × GoValue))))
      (m : List (String × GoValue)) (post : List (Option (List (String × GoValue))))
      (l : List Variant),
      appendConditionalAccessGroupFields g excludeL requireL includeL = some g' →
      requireL = pre ++ some m :: post → (∀ b ∈ post, b = none) →
      BuildAccessGroupCondition m = some l → g'.Require = l) ∧
    (∀ (g : AccessGroup) (excludeL requireL includeL : List (Option (List (String × GoValue))))
      (g' : AccessGroup) (pre : List (Option (List (String × GoValue))))
      (m : List (String × GoValue)) (post : List (Option (List (String × GoValue))))
      (l : List Variant),
      appendConditionalAccessGroupFields g excludeL requireL includeL = some g' →
      includeL = pre ++ some m :: post → (∀ b ∈ post, b = none) →
      BuildAccessGroupCondition m = some l → g'.Include = l) := by
  refine ⟨?_, ?_, ?_⟩ <;>
    intro g e r i g' pre m post l happ he hpost hm <;>
    subst he <;>
    rw [appendConditionalAccessGroupFields_eq] at happ <;>
    obtain ⟨exc, hexc, happ⟩ := Option.bind_eq_some.1 happ <;>
    obtain ⟨req, hreq, happ⟩ := Option.bind_eq_some.1 happ <;>
    obtain ⟨inc, hinc, happ⟩ := Option.bind_eq_some.1 happ <;>
    injection happ with happ <;>
    subst happ
  · exact condBlocksFold_last pre g.Exclude m post exc l hexc hpost hm
  · exact condBlocksFold_last pre g.Require m post req l hreq hpost hm
  · exact condBlocksFold_last pre g.Include m post inc l hinc hpost hm

/-- Witness for C10: two exclude blocks; only the second block's email
condition remains. -/
theorem claimC10_last_block_wins_witness : witGroupOut.Exclude = [Variant.email "b"] :=
  claimC10_last_block_wins.1 witGroup
    [some [("email", strList ["a"])], some [("email", strList ["b"])]] [] [] witGroupOut
    [some [("email", strList ["a"])]] [("email", strList ["b"])] [] [Variant.email "b"]
    rfl rfl (by simp) rfl

/-! ### Round-trip lemmas (C1) -/

theorem roundTrip_eq (options : List (String × GoValue)) :
    roundTrip options = (BuildAccessGroupCondition options).bind fun vs =>
      (TransformAccessGroupForSchema (vs.map variantToApi)).bind fun o =>
        some (schemaToOptions o) := rfl

theorem scanFrom_homogeneous_mem (f : α → GoValue) (upd : TransformState → α → TransformState) :
    ∀ l : List α, (∀ a ∈ l, ∀ st, processVariant st (f a) = some (upd st a)) →
      ∀ st : TransformState, scanFrom st (l.map f) = some (l.foldl upd st) := by
  intro l
  induction l with
  | nil => intro _ _; rfl
  | cons a t ih =>
    intro h st
    rw [List.map_cons, scanFrom_cons, h a (List.mem_cons_self a t) st, Option.some_bind,
      ih (fun x hx st' => h x (List.mem_cons_of_mem a hx) st'), List.foldl_cons]

theorem foldl_email :
    ∀ (es : List String) (st : TransformState),
      es.foldl (fun s e => { s with emails := s.emails ++ [e] }) st =
        { st with emails := st.emails ++ es } := by
  intro es
  induction es with
  | nil => intro st; simp
  | cons e t ih => intro st; rw [List.foldl_cons, ih]; simp

theorem emitPhase_email (es : List String) (hes : es ≠ []) :
    emitPhase { initState with emails := es } = [("email", SchemaVal.vStrs es)] := by
  obtain ⟨e, es2, rfl⟩ := List.exists_cons_of_ne_nil hes
  rfl

theorem roundTrip_email (es : List String) (hes : es ≠ []) :
    roundTrip [("email", strList es)] = some [("email", strList es)] := by
  rw [roundTrip_eq, BuildAccessGroupCondition_single, buildKind_email_eq, Option.some_bind]
  have hscan : scanFrom initState ((es.map Variant.email).map variantToApi) =
      some { initState with emails := es } := by
    rw [List.map_map, scanFrom_homogeneous_mem (variantToApi ∘ Variant.email)
      (fun s e => { s with emails := s.emails ++ [e] }) es (fun a _ st => rfl) initState,
      foldl_email]
    rfl
  rw [TransformAccessGroupForSchema_eq, hscan, Option.some_bind,
    emitPhase_email es hes, Option.some_bind]
  rfl

theorem foldl_emailDomain :
    ∀ (es : List String) (st : TransformState),
      es.foldl (fun s e => { s with emailDomains := s.emailDomains ++ [e] }) st =
        { st with emailDomains := st.emailDomains ++ es } := by
  intro es
  induction es with
  | nil => intro st; simp
  | cons e t ih => intro st; rw [List.foldl_cons, ih]; simp

theorem emitPhase_emailDomain (es : List String) (hes : es ≠ []) :
    emitPhase { initState with emailDomains := es } = [("email_domain", SchemaVal.vStrs es)] := by
  obtain ⟨e, es2, rfl⟩ := List.exists_cons_of_ne_nil hes
  rfl

theorem roundTrip_emailDomain (es : List String) (hes : es ≠ []) :
    roundTrip [("email_domain", strList es)] = some [("email_domain", strList es)] := by
  rw [roundTrip_eq, BuildAccessGroupCondition_single, buildKind_emailDomain_eq, Option.some_bind]
  have hscan : scanFrom initState ((es.map Variant.emailDomain).map variantToApi) =
      some { initState with emailDomains := es } := by
    rw [List.map_map, scanFrom_homogeneous_mem (variantToApi ∘ Variant.emailDomain)
      (fun s e => { s with emailDomains := s.emailDomains ++ [e] }) es (fun a _ st => rfl) initState,
      foldl_emailDomain]
    rfl
  rw [TransformAccessGroupForSchema_eq, hscan, Option.some_bind,
    emitPhase_emailDomain es hes, Option.some_bind]
  rfl

theorem foldl_ip :
    ∀ (es : List String) (st : TransformState),
      es.foldl (fun s e => { s with ips := s.ips ++ [e] }) st =
        { st with ips := st.ips ++ es } := by
  intro es
  induction es with
  | nil => intro st; simp
  | cons e t ih => intro st; rw [List.foldl_cons, ih]; simp

theorem emitPhase_ip (es : List String) (hes : es ≠ []) :
    emitPhase { initState with ips := es } = [("ip", SchemaVal.vStrs es)] := by
  obtain ⟨e, es2, rfl⟩ := List.exists_cons_of_ne_nil hes
  rfl

theorem roundTrip_ip (es : List String) (hes : es ≠ []) :
    roundTrip [("ip", strList es)] = some [("ip", strList es)] := by
  rw [roundTrip_eq, BuildAccessGroupCondition_single, buildKind_ip_eq, Option.some_bind]
  have hscan : scanFrom initState ((es.map Variant.ip).map variantToApi) =
      some { initState with ips := es } := by
    rw [List.map_map, scanFrom_homogeneous_mem (variantToApi ∘ Variant.ip)
      (fun s e => { s with ips := s.ips ++ [e] }) es (fun a _ st => rfl) initState,
      foldl_ip]
    rfl
  rw [TransformAccessGroupForSchema_eq, hscan, Option.some_bind,
    emitPhase_ip es hes, Option.some_bind]
  rfl

theorem foldl_serviceToken :
    ∀ (es : List String) (st : TransformState),
      es.foldl (fun s e => { s with serviceTokens := s.serviceTokens ++ [e] }) st =
        { st with serviceTokens := st.serviceTokens ++ es } := by
  intro es
  induction es with
  | nil => intro st; simp
  | cons e t ih => intro st; rw [List.foldl_cons, ih]; simp

theorem emitPhase_serviceToken (es : List String) (hes : es ≠ []) :
    emitPhase { initState with serviceTokens := es } = [("service_token", SchemaVal.vStrs es)] := by
  obtain ⟨e, es2, rfl⟩ := List.exists_cons_of_ne_nil hes
  rfl

theorem roundTrip_serviceToken (es : List String) (hes : es ≠ []) :
    roundTrip [("service_token", strList es)] = some [("service_token", strList es)] := by
  rw [roundTrip_eq, BuildAccessGroupCondition_single, buildKind_serviceToken_eq, Option.some_bind]
  have hscan : scanFrom initState ((es.map Variant.serviceToken).map variantToApi) =
      some { initState with serviceTokens := es } := by
    rw [List.map_map, scanFrom_homogeneous_mem (variantToApi ∘ Variant.serviceToken)
      (fun s e => { s with serviceTokens := s.serviceTokens ++ [e] }) es (fun a _ st => rfl) initState,
      foldl_serviceToken]
    rfl
  rw [TransformAccessGroupForSchema_eq, hscan, Option.some_bind,
    emitPhase_serviceToken es hes, Option.some_bind]
  rfl

theorem foldl_group :
    ∀ (es : List String) (st : TransformState),
      es.foldl (fun s e => { s with groups := s.groups ++ [e] }) st =
        { st with groups := st.groups ++ es } := by
  intro es
  induction es with
  | nil => intro st; simp
  | cons e t ih => intro st; rw [List.foldl_cons, ih]; simp

theorem emitPhase_group (es : List String) (hes : es ≠ []) :
    emitPhase { initState with groups := es } = [("group", SchemaVal.vStrs es)] := by
  obtain ⟨e, es2, rfl⟩ := List.exists_cons_of_ne_nil hes
  rfl

theorem roundTrip_group (es : List String) (hes : es ≠ []) :
    roundTrip [("group", strList es)] = some [("group", strList es)] := by
  rw [roundTrip_eq, BuildAccessGroupCondition_single, buildKind_group_eq, Option.some_bind]
  have hscan : scanFrom initState ((es.map Variant.group).map variantToApi) =
      some { initState with groups := es } := by
    rw [List.map_map, scanFrom_homogeneous_mem (variantToApi ∘ Variant.group)
      (fun s e => { s with groups := s.groups ++ [e] }) es (fun a _ st => rfl) initState,
      foldl_group]
    rfl
  rw [TransformAccessGroupForSchema_eq, hscan, Option.some_bind,
    emitPhase_group es hes, Option.some_bind]
  rfl

theorem foldl_geo :
    ∀ (es : List String) (st : TransformState),
      es.foldl (fun s e => { s with geos := s.geos ++ [e] }) st =
        { st with geos := st.geos ++ es } := by
  intro es
  induction es with
  | nil => intro st; simp
  | cons e t ih => intro st; rw [List.foldl_cons, ih]; simp

theorem emitPhase_geo (es : List String) (hes : es ≠ []) :
    emitPhase { initState with geos := es } = [("geo", SchemaVal.vStrs es)] := by
  obtain ⟨e, es2, rfl⟩ := List.exists_cons_of_ne_nil hes
  rfl

theorem roundTrip_geo (es : List String) (hes : es ≠ []) :
    roundTrip [("geo", strList es)] = some [("geo", strList es)] := by
  rw [roundTrip_eq, BuildAccessGroupCondition_single, buildKind_geo_eq, Option.some_bind]
  have hscan : scanFrom initState ((es.map Variant.geo).map variantToApi) =
      some { initState with geos := es } := by
    rw [List.map_map, scanFrom_homogeneous_mem (variantToApi ∘ Variant.geo)
      (fun s e => { s with geos := s.geos ++ [e] }) es (fun a _ st => rfl) initState,
      foldl_geo]
    rfl
  rw [TransformAccessGroupForSchema_eq, hscan, Option.some_bind,
    emitPhase_geo es hes, Option.some_bind]
  rfl

theorem foldl_loginMethod :
    ∀ (es : List String) (st : TransformState),
      es.foldl (fun s e => { s with loginMethod := s.loginMethod ++ [e] }) st =
        { st with loginMethod := st.loginMethod ++ es } := by
  intro es
  induction es with
  | nil => intro st; simp
  | cons e t ih => intro st; rw [List.foldl_cons, ih]; simp

theorem emitPhase_loginMethod (es : List String) (hes : es ≠ []) :
    emitPhase { initState with loginMethod := es } = [("login_method", SchemaVal.vStrs es)] := by
  obtain ⟨e, es2, rfl⟩ := List.exists_cons_of_ne_nil hes
  rfl

theorem roundTrip_loginMethod (es : List String) (hes : es ≠ []) :
    roundTrip [("login_method", strList es)] = some [("login_method", strList es)] := by
  rw [roundTrip_eq, BuildAccessGroupCondition_single, buildKind_loginMethod_eq, Option.some_bind]
  have hscan : scanFrom initState ((es.map Variant.loginMethod).map variantToApi) =
      some { initState with loginMethod := es } := by
    rw [List.map_map, scanFrom_homogeneous_mem (variantToApi ∘ Variant.loginMethod)
      (fun s e => { s with loginMethod := s.loginMethod ++ [e] }) es (fun a _ st => rfl) initState,
      foldl_loginMethod]
    rfl
  rw [TransformAccessGroupForSchema_eq, hscan, Option.some_bind,
    emitPhase_loginMethod es hes, Option.some_bind]
  rfl

theorem foldl_devicePosture :
    ∀ (es : List String) (st : TransformState),
      es.foldl (fun s e => { s with devicePostureRuleIDs := s.devicePostureRuleIDs ++ [e] }) st =
        { st with devicePostureRuleIDs := st.devicePostureRuleIDs ++ es } := by
  intro es
  induction es with
  | nil => intro st; simp
  | cons e t ih => intro st; rw [List.foldl_cons, ih]; simp

theorem emitPhase_devicePosture (es : List String) (hes : es ≠ []) :
    emitPhase { initState with devicePostureRuleIDs := es } = [("device_posture", SchemaVal.vStrs es)] := by
  obtain ⟨e, es2, rfl⟩ := List.exists_cons_of_ne_nil hes
  rfl

theorem roundTrip_devicePosture (es : List String) (hes : es ≠ []) :
    roundTrip [("device_posture", strList es)] = some [("device_posture", strList es)] := by
  rw [roundTrip_eq, BuildAccessGroupCondition_single, buildKind_devicePosture_eq, Option.some_bind]
  have hscan : scanFrom initState ((es.map Variant.devicePosture).map variantToApi) =
      some { initState with devicePostureRuleIDs := es } := by
    rw [List.map_map, scanFrom_homogeneous_mem (variantToApi ∘ Variant.devicePosture)
      (fun s e => { s with devicePostureRuleIDs := s.devicePostureRuleIDs ++ [e] }) es (fun a _ st => rfl) initState,
      foldl_devicePosture]
    rfl
  rw [TransformAccessGroupForSchema_eq, hscan, Option.some_bind,
    emitPhase_devicePosture es hes, Option.some_bind]
  rfl

theorem roundTrip_everyone :
    roundTrip [("everyone", GoValue.bool true)] = some [("everyone", GoValue.bool true)] := rfl

theorem roundTrip_anyValidServiceToken :
    roundTrip [("any_valid_service_token", GoValue.bool true)] =
      some [("any_valid_service_token", GoValue.bool true)] := rfl

theorem roundTrip_certificate :
    roundTrip [("certificate", GoValue.bool true)] =
      some [("certificate", GoValue.bool true)] := rfl

theorem buildKind_commonName_eq (s : String) (hs : s ≠ "") :
    buildKind "common_name" (GoValue.str s) = some [Variant.commonName s] := by
  have h : buildKind "common_name" (GoValue.str s) =
      if s = "" then some [] else some [Variant.commonName s] := rfl
  rw [h, if_neg hs]

theorem emitPhase_commonName (s : String) (hs : s ≠ "") :
    emitPhase { initState with commonName := s } = [("common_name", SchemaVal.vStr s)] := by
  have hb : (s != "") = true := by simpa [bne_iff_ne] using hs
  simp [emitPhase, emitIf, initState, hb]

theorem roundTrip_commonName (s : String) (hs : s ≠ "") :
    roundTrip [("common_name", GoValue.str s)] = some [("common_name", GoValue.str s)] := by
  rw [roundTrip_eq, BuildAccessGroupCondition_single, buildKind_commonName_eq s hs,
    Option.some_bind]
  have hscan : scanFrom initState ([Variant.commonName s].map variantToApi) =
      some { initState with commonName := s } := rfl
  rw [TransformAccessGroupForSchema_eq, hscan, Option.some_bind, emitPhase_commonName s hs,
    Option.some_bind]
  rfl

theorem buildKind_authMethod_eq (s : String) (hs : s ≠ "") :
    buildKind "auth_method" (GoValue.str s) = some [Variant.authMethod s] := by
  have h : buildKind "auth_method" (GoValue.str s) =
      if s = "" then some [] else some [Variant.authMethod s] := rfl
  rw [h, if_neg hs]

theorem emitPhase_authMethod (s : String) (hs : s ≠ "") :
    emitPhase { initState with authMethod := s } = [("auth_method", SchemaVal.vStr s)] := by
  have hb : (s != "") = true := by simpa [bne_iff_ne] using hs
  simp [emitPhase, emitIf, initState, hb]

theorem roundTrip_authMethod (s : String) (hs : s ≠ "") :
    roundTrip [("auth_method", GoValue.str s)] = some [("auth_method", GoValue.str s)] := by
  rw [roundTrip_eq, BuildAccessGroupCondition_single, buildKind_authMethod_eq s hs,
    Option.some_bind]
  have hscan : scanFrom initState ([Variant.authMethod s].map variantToApi) =
      some { initState with authMethod := s } := rfl
  rw [TransformAccessGroupForSchema_eq, hscan, Option.some_bind, emitPhase_authMethod s hs,
    Option.some_bind]
  rfl

theorem buildKind_okta_eq (idp : String) (vs : List String) :
    buildKind "okta" (GoValue.list [GoValue.map [("identity_provider_id", GoValue.str idp),
      ("name", strList vs)]]) = some (vs.map fun x => Variant.okta x idp) := by
  have h : buildKind "okta" (GoValue.list [GoValue.map
      [("identity_provider_id", GoValue.str idp), ("name", strList vs)]]) =
      ((optionMapM (fun xv => (asString xv).bind fun x => some (Variant.okta x idp))
        (vs.map GoValue.str)).bind fun r => some [r]).bind
          fun parts => some (flattenLists parts) := rfl
  rw [h, optionMapM_map (fun xv => (asString xv).bind fun x => some (Variant.okta x idp))
    GoValue.str (fun x => Variant.okta x idp) (fun _ => rfl) vs, Option.some_bind, Option.some_bind]
  simp [flattenLists]

theorem foldl_oktaAcc (idp : String) :
    ∀ (vs : List String) (st : TransformState) (a : String),
      (a :: vs).foldl (fun s x => { s with oktaID := idp, oktaGroups := s.oktaGroups ++ [x] })
        st = { st with oktaID := idp, oktaGroups := st.oktaGroups ++ a :: vs } := by
  intro vs
  induction vs with
  | nil => intro st a; simp
  | cons b t ih => intro st a; rw [List.foldl_cons, ih]; simp

theorem emitPhase_okta (idp : String) (vs : List String) (hidp : idp ≠ "") (hvs : vs ≠ []) :
    emitPhase { initState with oktaID := idp, oktaGroups := vs } =
      [("okta", SchemaVal.vBlock [("identity_provider_id", BlockVal.bStr idp),
        ("name", BlockVal.bStrs vs)])] := by
  obtain ⟨x, vs2, rfl⟩ := List.exists_cons_of_ne_nil hvs
  have hb : (idp != "") = true := by simpa [bne_iff_ne] using hidp
  simp [emitPhase, emitIf, initState, hb]

theorem roundTrip_okta (idp : String) (vs : List String) (hidp : idp ≠ "") (hvs : vs ≠ []) :
    roundTrip [("okta", GoValue.list [GoValue.map
      [("identity_provider_id", GoValue.str idp), ("name", strList vs)]])] =
      some [("okta", GoValue.list [GoValue.map
        [("identity_provider_id", GoValue.str idp), ("name", strList vs)]])] := by
  rw [roundTrip_eq, BuildAccessGroupCondition_single, buildKind_okta_eq, Option.some_bind]
  have hscan : scanFrom initState ((vs.map fun x => Variant.okta x idp).map variantToApi) =
      some { initState with oktaID := idp, oktaGroups := vs } := by
    obtain ⟨x, vs2, rfl⟩ := List.exists_cons_of_ne_nil hvs
    rw [List.map_map, scanFrom_homogeneous_mem (variantToApi ∘ fun x => Variant.okta x idp)
      (fun s x => { s with oktaID := idp, oktaGroups := s.oktaGroups ++ [x] })
      (x :: vs2) (fun a _ st => rfl) initState, foldl_oktaAcc]
    rfl
  rw [TransformAccessGroupForSchema_eq, hscan, Option.some_bind,
    emitPhase_okta idp vs hidp hvs, Option.some_bind]
  rfl

theorem buildKind_gsuite_eq (idp : String) (vs : List String) :
    buildKind "gsuite" (GoValue.list [GoValue.map [("identity_provider_id", GoValue.str idp),
      ("email", strList vs)]]) = some (vs.map fun x => Variant.gsuite x idp) := by
  have h : buildKind "gsuite" (GoValue.list [GoValue.map
      [("identity_provider_id", GoValue.str idp), ("email", strList vs)]]) =
      ((optionMapM (fun xv => (asString xv).bind fun x => some (Variant.gsuite x idp))
        (vs.map GoValue.str)).bind fun r => some [r]).bind
          fun parts => some (flattenLists parts) := rfl
  rw [h, optionMapM_map (fun xv => (asString xv).bind fun x => some (Variant.gsuite x idp))
    GoValue.str (fun x => Variant.gsuite x idp) (fun _ => rfl) vs, Option.some_bind, Option.some_bind]
  simp [flattenLists]

theorem foldl_gsuiteAcc (idp : String) :
    ∀ (vs : List String) (st : TransformState) (a : String),
      (a :: vs).foldl (fun s x => { s with gsuiteID := idp, gsuiteEmails := s.gsuiteEmails ++ [x] })
        st = { st with gsuiteID := idp, gsuiteEmails := st.gsuiteEmails ++ a :: vs } := by
  intro vs
  induction vs with
  | nil => intro st a; simp
  | cons b t ih => intro st a; rw [List.foldl_cons, ih]; simp

theorem emitPhase_gsuite (idp : String) (vs : List String) (hidp : idp ≠ "") (hvs : vs ≠ []) :
    emitPhase { initState with gsuiteID := idp, gsuiteEmails := vs } =
      [("gsuite", SchemaVal.vBlock [("identity_provider_id", BlockVal.bStr idp),
        ("email", BlockVal.bStrs vs)])] := by
  obtain ⟨x, vs2, rfl⟩ := List.exists_cons_of_ne_nil hvs
  have hb : (idp != "") = true := by simpa [bne_iff_ne] using hidp
  simp [emitPhase, emitIf, initState, hb]

theorem roundTrip_gsuite (idp : String) (vs : List String) (hidp : idp ≠ "") (hvs : vs ≠ []) :
    roundTrip [("gsuite", GoValue.list [GoValue.map
      [("identity_provider_id", GoValue.str idp), ("email", strList vs)]])] =
      some [("gsuite", GoValue.list [GoValue.map
        [("identity_provider_id", GoValue.str idp), ("email", strList vs)]])] := by
  rw [roundTrip_eq, BuildAccessGroupCondition_single, buildKind_gsuite_eq, Option.some_bind]
  have hscan : scanFrom initState ((vs.map fun x => Variant.gsuite x idp).map variantToApi) =
      some { initState with gsuiteID := idp, gsuiteEmails := vs } := by
    obtain ⟨x, vs2, rfl⟩ := List.exists_cons_of_ne_nil hvs
    rw [List.map_map, scanFrom_homogeneous_mem (variantToApi ∘ fun x => Variant.gsuite x idp)
      (fun s x => { s with gsuiteID := idp, gsuiteEmails := s.gsuiteEmails ++ [x] })
      (x :: vs2) (fun a _ st => rfl) initState, foldl_gsuiteAcc]
    rfl
  rw [TransformAccessGroupForSchema_eq, hscan, Option.some_bind,
    emitPhase_gsuite idp vs hidp hvs, Option.some_bind]
  rfl

theorem buildKind_azure_eq (idp : String) (vs : List String) :
    buildKind "azure" (GoValue.list [GoValue.map [("identity_provider_id", GoValue.str idp),
      ("id", strList vs)]]) = some (vs.map fun x => Variant.azure x idp) := by
  have h : buildKind "azure" (GoValue.list [GoValue.map
      [("identity_provider_id", GoValue.str idp), ("id", strList vs)]]) =
      ((optionMapM (fun xv => (asString xv).bind fun x => some (Variant.azure x idp))
        (vs.map GoValue.str)).bind fun r => some [r]).bind
          fun parts => some (flattenLists parts) := rfl
  rw [h, optionMapM_map (fun xv => (asString xv).bind fun x => some (Variant.azure x idp))
    GoValue.str (fun x => Variant.azure x idp) (fun _ => rfl) vs, Option.some_bind, Option.some_bind]
  simp [flattenLists]

theorem foldl_azureAcc (idp : String) :
    ∀ (vs : List String) (st : TransformState) (a : String),
      (a :: vs).foldl (fun s x => { s with azureID := idp, azureIDs := s.azureIDs ++ [x] })
        st = { st with azureID := idp, azureIDs := st.azureIDs ++ a :: vs } := by
  intro vs
  induction vs with
  | nil => intro st a; simp
  | cons b t ih => intro st a; rw [List.foldl_cons, ih]; simp

theorem emitPhase_azure (idp : String) (vs : List String) (hidp : idp ≠ "") (hvs : vs ≠ []) :
    emitPhase { initState with azureID := idp, azureIDs := vs } =
      [("azure", SchemaVal.vBlock [("identity_provider_id", BlockVal.bStr idp),
        ("id", BlockVal.bStrs vs)])] := by
  obtain ⟨x, vs2, rfl⟩ := List.exists_cons_of_ne_nil hvs
  have hb : (idp != "") = true := by simpa [bne_iff_ne] using hidp
  simp [emitPhase, emitIf, initState, hb]

theorem roundTrip_azure (idp : String) (vs : List String) (hidp : idp ≠ "") (hvs : vs ≠ []) :
    roundTrip [("azure", GoValue.list [GoValue.map
      [("identity_provider_id", GoValue.str idp), ("id", strList vs)]])] =
      some [("azure", GoValue.list [GoValue.map
        [("identity_provider_id", GoValue.str idp), ("id", strList vs)]])] := by
  rw [roundTrip_eq, BuildAccessGroupCondition_single, buildKind_azure_eq, Option.some_bind]
  have hscan : scanFrom initState ((vs.map fun x => Variant.azure x idp).map variantToApi) =
      some { initState with azureID := idp, azureIDs := vs } := by
    obtain ⟨x, vs2, rfl⟩ := List.exists_cons_of_ne_nil hvs
    rw [List.map_map, scanFrom_homogeneous_mem (variantToApi ∘ fun x => Variant.azure x idp)
      (fun s x => { s with azureID := idp, azureIDs := s.azureIDs ++ [x] })
      (x :: vs2) (fun a _ st => rfl) initState, foldl_azureAcc]
    rfl
  rw [TransformAccessGroupForSchema_eq, hscan, Option.some_bind,
    emitPhase_azure idp vs hidp hvs, Option.some_bind]
  rfl

theorem buildKind_github_nil_eq (n idp : String) :
    buildKind "github" (GoValue.list [GoValue.map [("name", GoValue.str n),
      ("teams", strList []), ("identity_provider_id", GoValue.str idp)]]) =
      some [Variant.github n "" idp] := rfl

theorem buildKind_github_cons_eq (n idp t : String) (ts : List String) :
    buildKind "github" (GoValue.list [GoValue.map [("name", GoValue.str n),
      ("teams", strList (t :: ts)), ("identity_provider_id", GoValue.str idp)]]) =
      some ((t :: ts).map fun tm => Variant.github n tm idp) := by
  have h : buildKind "github" (GoValue.list [GoValue.map [("name", GoValue.str n),
      ("teams", strList (t :: ts)), ("identity_provider_id", GoValue.str idp)]]) =
      ((if ((t :: ts).map GoValue.str).length > 0 then
          optionMapM (fun tv => (asString tv).bind fun tm => some (Variant.github n tm idp))
            ((t :: ts).map GoValue.str)
        else some [Variant.github n "" idp]).bind fun r => some [r]).bind
          fun parts => some (flattenLists parts) := rfl
  have hlen : ((t :: ts).map GoValue.str).length > 0 := by simp
  rw [h, if_pos hlen,
    optionMapM_map (fun tv => (asString tv).bind fun tm => some (Variant.github n tm idp))
      GoValue.str (fun tm => Variant.github n tm idp) (fun _ => rfl) (t :: ts), Option.some_bind,
    Option.some_bind]
  simp [flattenLists]

theorem variantToApi_github_ne (n t idp : String) (h : t ≠ "") :
    variantToApi (Variant.github n t idp) =
      GoValue.map [("github-organization", GoValue.map [("name", GoValue.str n),
        ("team", GoValue.str t), ("identity_provider_id", GoValue.str idp)])] := by
  simp [variantToApi, h]

theorem foldl_githubAcc (n idp : String) :
    ∀ (ts : List String) (st : TransformState) (a : String),
      (a :: ts).foldl (fun s x => { s with githubID := idp, githubName := n, githubTeams := s.githubTeams ++ [x] }) st =
        { st with githubID := idp, githubName := n, githubTeams := st.githubTeams ++ a :: ts } := by
  intro ts
  induction ts with
  | nil => intro st a; simp
  | cons b t ih => intro st a; rw [List.foldl_cons, ih]; simp

theorem emitPhase_github (n idp : String) (ts : List String) (hn : n ≠ "") (hidp : idp ≠ "") :
    emitPhase { initState with githubName := n, githubTeams := ts, githubID := idp } =
      [("github", SchemaVal.vBlock [("name", BlockVal.bStr n), ("teams", BlockVal.bStrs ts),
        ("identity_provider_id", BlockVal.bStr idp)])] := by
  have hb1 : (idp != "") = true := by simpa [bne_iff_ne] using hidp
  have hb2 : (n != "") = true := by simpa [bne_iff_ne] using hn
  simp [emitPhase, emitIf, initState, hb1, hb2]

theorem roundTrip_github (n idp : String) (ts : List String) (hn : n ≠ "") (hidp : idp ≠ "")
    (hts : "" ∉ ts) :
    roundTrip [("github", GoValue.list [GoValue.map [("name", GoValue.str n),
      ("teams", strList ts), ("identity_provider_id", GoValue.str idp)]])] =
      some [("github", GoValue.list [GoValue.map [("name", GoValue.str n),
        ("teams", strList ts), ("identity_provider_id", GoValue.str idp)]])] := by
  cases ts with
  | nil =>
    rw [roundTrip_eq, BuildAccessGroupCondition_single, buildKind_github_nil_eq,
      Option.some_bind]
    have hscan : scanFrom initState ([Variant.github n "" idp].map variantToApi) =
        some { initState with githubName := n, githubTeams := [], githubID := idp } := rfl
    rw [TransformAccessGroupForSchema_eq, hscan, Option.some_bind,
      emitPhase_github n idp [] hn hidp, Option.some_bind]
    rfl
  | cons t ts2 =>
    have hne : ∀ x ∈ t :: ts2, ∀ st : TransformState,
        processVariant st ((variantToApi ∘ fun tm => Variant.github n tm idp) x) =
          some { st with githubID := idp, githubName := n, githubTeams := st.githubTeams ++ [x] } := by
      intro x hx st
      have hx0 : x ≠ "" := fun e => hts (e ▸ hx)
      rw [Function.comp_apply, variantToApi_github_ne n x idp hx0]
      rfl
    rw [roundTrip_eq, BuildAccessGroupCondition_single, buildKind_github_cons_eq,
      Option.some_bind]
    have hscan : scanFrom initState
        (((t :: ts2).map fun tm => Variant.github n tm idp).map variantToApi) =
        some { initState with githubName := n, githubTeams := t :: ts2, githubID := idp } := by
      rw [List.map_map, scanFrom_homogeneous_mem (variantToApi ∘ fun tm => Variant.github n tm idp)
        (fun s x => { s with githubID := idp, githubName := n, githubTeams := s.githubTeams ++ [x] }) (t :: ts2) hne initState, foldl_githubAcc]
      rfl
    rw [TransformAccessGroupForSchema_eq, hscan, Option.some_bind,
      emitPhase_github n idp (t :: ts2) hn hidp, Option.some_bind]
    rfl

theorem emitPhase_externalEvaluation (eu ku : String) (heu : eu ≠ "") (hku : ku ≠ "") :
    emitPhase { initState with externalEvaluationURL := eu, externalEvaluationKeysURL := ku } =
      [("external_evaluation", SchemaVal.vBlock [("evaluate_url", BlockVal.bStr eu),
        ("keys_url", BlockVal.bStr ku)])] := by
  have hb1 : (eu != "") = true := by simpa [bne_iff_ne] using heu
  have hb2 : (ku != "") = true := by simpa [bne_iff_ne] using hku
  simp [emitPhase, emitIf, initState, hb1, hb2]

theorem roundTrip_externalEvaluation (eu ku : String) (heu : eu ≠ "") (hku : ku ≠ "") :
    roundTrip [("external_evaluation", GoValue.list [GoValue.map
      [("evaluate_url", GoValue.str eu), ("keys_url", GoValue.str ku)]])] =
      some [("external_evaluation", GoValue.list [GoValue.map
        [("evaluate_url", GoValue.str eu), ("keys_url", GoValue.str ku)]])] := by
  rw [roundTrip_eq]
  have hb : BuildAccessGroupCondition [("external_evaluation", GoValue.list [GoValue.map
      [("evaluate_url", GoValue.str eu), ("keys_url", GoValue.str ku)]])] =
      some [Variant.externalEvaluation eu ku] := rfl
  rw [hb, Option.some_bind]
  have hscan : scanFrom initState ([Variant.externalEvaluation eu ku].map variantToApi) =
      some { initState with externalEvaluationURL := eu, externalEvaluationKeysURL := ku } := rfl
  rw [TransformAccessGroupForSchema_eq, hscan, Option.some_bind,
    emitPhase_externalEvaluation eu ku heu hku, Option.some_bind]
  rfl

/-! ### C1 -/

/-- C1 (amended): converting a flattened single-kind map through
`BuildAccessGroupCondition`, serialising the variants through the API
representation and converting back through
`TransformAccessGroupForSchema` yields the original flattened
representation for every supported condition kind except `saml`, which
drops its `identity_provider_id`.  The inputs are the well-shaped
non-degenerate ones the claim presumes: non-empty value lists, `true`
for the boolean kinds, non-empty strings for the string-valued kinds and
identity-provider IDs, and no empty team names.  In particular two
e-mails produce two email variants which transform back to the same two
e-mails. -/
theorem claimC1_roundtrip_amended :
    (∀ es : List String, es ≠ [] →
      roundTrip [("email", strList es)] = some [("email", strList es)]) ∧
    (∀ es : List String, es ≠ [] →
      roundTrip [("email_domain", strList es)] = some [("email_domain", strList es)]) ∧
    (∀ es : List String, es ≠ [] →
      roundTrip [("ip", strList es)] = some [("ip", strList es)]) ∧
    (∀ es : List String, es ≠ [] →
      roundTrip [("service_token", strList es)] = some [("service_token", strList es)]) ∧
    (∀ es : List String, es ≠ [] →
      roundTrip [("group", strList es)] = some [("group", strList es)]) ∧
    (∀ es : List String, es ≠ [] →
      roundTrip [("geo", strList es)] = some [("geo", strList es)]) ∧
    (∀ es : List String, es ≠ [] →
      roundTrip [("login_method", strList es)] = some [("login_method", strList es)]) ∧
    (∀ es : List String, es ≠ [] →
      roundTrip [("device_posture", strList es)] = some [("device_posture", strList es)]) ∧
    (roundTrip [("everyone", GoValue.bool true)] = some [("everyone", GoValue.bool true)]) ∧
    (roundTrip [("any_valid_service_token", GoValue.bool true)] =
      some [("any_valid_service_token", GoValue.bool true)]) ∧
    (roundTrip [("certificate", GoValue.bool true)] =
      some [("certificate", GoValue.bool true)]) ∧
    (∀ s : String, s ≠ "" →
      roundTrip [("common_name", GoValue.str s)] = some [("common_name", GoValue.str s)]) ∧
    (∀ s : String, s ≠ "" →
      roundTrip [("auth_method", GoValue.str s)] = some [("auth_method", GoValue.str s)]) ∧
    (∀ (idp : String) (vs : List String), idp ≠ "" → vs ≠ [] →
      roundTrip [("okta", GoValue.list [GoValue.map [("identity_provider_id", GoValue.str idp),
        ("name", strList vs)]])] = some [("okta", GoValue.list [GoValue.map
        [("identity_provider_id", GoValue.str idp), ("name", strList vs)]])]) ∧
    (∀ (idp : String) (vs : List String), idp ≠ "" → vs ≠ [] →
      roundTrip [("gsuite", GoValue.list [GoValue.map [("identity_provider_id", GoValue.str idp),
        ("email", strList vs)]])] = some [("gsuite", GoValue.list [GoValue.map
        [("identity_provider_id", GoValue.str idp), ("email", strList vs)]])]) ∧
    (∀ (idp : String) (vs : List String), idp ≠ "" → vs ≠ [] →
      roundTrip [("azure", GoValue.list [GoValue.map [("identity_provider_id", GoValue.str idp),
        ("id", strList vs)]])] = some [("azure", GoValue.list [GoValue.map
        [("identity_provider_id", GoValue.str idp), ("id", strList vs)]])]) ∧
    (∀ (n idp : String) (ts : List String), n ≠ "" → idp ≠ "" → "" ∉ ts →
      roundTrip [("github", GoValue.list [GoValue.map [("name", GoValue.str n),
        ("teams", strList ts), ("identity_provider_id", GoValue.str idp)]])] =
        some [("github", GoValue.list [GoValue.map [("name", GoValue.str n),
          ("teams", strList ts), ("identity_provider_id", GoValue.str idp)]])]) ∧
    (∀ eu ku : String, eu ≠ "" → ku ≠ "" →
      roundTrip [("external_evaluation", GoValue.list [GoValue.map
        [("evaluate_url", GoValue.str eu), ("keys_url", GoValue.str ku)]])] =
        some [("external_evaluation", GoValue.list [GoValue.map
          [("evaluate_url", GoValue.str eu), ("keys_url", GoValue.str ku)]])]) :=
  ⟨roundTrip_email, roundTrip_emailDomain, roundTrip_ip, roundTrip_serviceToken,
   roundTrip_group, roundTrip_geo, roundTrip_loginMethod, roundTrip_devicePosture,
   roundTrip_everyone, roundTrip_anyValidServiceToken, roundTrip_certificate,
   roundTrip_commonName, roundTrip_authMethod,
   fun idp vs h1 h2 => roundTrip_okta idp vs h1 h2,
   fun idp vs h1 h2 => roundTrip_gsuite idp vs h1 h2,
   fun idp vs h1 h2 => roundTrip_azure idp vs h1 h2,
   fun n idp ts h1 h2 h3 => roundTrip_github n idp ts h1 h2 h3,
   fun eu ku h1 h2 => roundTrip_externalEvaluation eu ku h1 h2⟩

/-- Witness for C1 at the claim's own e-mail example. -/
theorem claimC1_roundtrip_amended_witness :
    roundTrip [("email", strList ["a@x.com", "b@x.com"])] =
      some [("email", strList ["a@x.com", "b@x.com"])] :=
  claimC1_roundtrip_amended.1 ["a@x.com", "b@x.com"] (by decide)
